import Mathlib

set_option maxHeartbeats 1000000

namespace UserService

/-!
Verification of the `Labgrab/user_service` CRUD/validation core.

The validators of `internal/service/validate.go` are anchored Go regular
expressions; they are embedded here through a small regular-expression engine
with predicate character classes and Brzozowski-derivative matching.  All three
source patterns have the form `^...$`, so `MatchString` decides full-string
membership, which is what `rmatch` computes.
-/

/-- Regular expressions over `Char` with predicate character classes.  This is
the shape of the compiled Go patterns: literals and classes such as `\p{L}` or
`[1-9]` become `cls`, juxtaposition becomes `cat`, `x+` becomes `x x*`, and
counted repetition `x{m,n}` becomes `x^m (x?)^(n-m)`. -/
inductive RE where
  | emptyset : RE
  | eps : RE
  | cls : (Char → Bool) → RE
  | alt : RE → RE → RE
  | cat : RE → RE → RE
  | star : RE → RE

/-- The matching relation: `RMatch r s` holds when the whole string `s` is in
the language of `r`. -/
inductive RMatch : RE → List Char → Prop where
  | eps : RMatch .eps []
  | cls {p : Char → Bool} {c : Char} : p c = true → RMatch (.cls p) [c]
  | altL {r₁ r₂ : RE} {s : List Char} : RMatch r₁ s → RMatch (.alt r₁ r₂) s
  | altR {r₁ r₂ : RE} {s : List Char} : RMatch r₂ s → RMatch (.alt r₁ r₂) s
  | cat {r₁ r₂ : RE} {s₁ s₂ : List Char} :
      RMatch r₁ s₁ → RMatch r₂ s₂ → RMatch (.cat r₁ r₂) (s₁ ++ s₂)
  | starNil {r : RE} : RMatch (.star r) []
  | starCons {r : RE} {s₁ s₂ : List Char} :
      RMatch r s₁ → RMatch (.star r) s₂ → RMatch (.star r) (s₁ ++ s₂)

/-- Does `r` accept the empty string? -/
def nullable : RE → Bool
  | .emptyset => false
  | .eps => true
  | .cls _ => false
  | .alt r₁ r₂ => nullable r₁ || nullable r₂
  | .cat r₁ r₂ => nullable r₁ && nullable r₂
  | .star _ => true

/-- Brzozowski derivative of `r` with respect to the character `c`. -/
def deriv : RE → Char → RE
  | .emptyset, _ => .emptyset
  | .eps, _ => .emptyset
  | .cls p, c => if p c then .eps else .emptyset
  | .alt r₁ r₂, c => .alt (deriv r₁ c) (deriv r₂ c)
  | .cat r₁ r₂, c =>
      if nullable r₁ then .alt (.cat (deriv r₁ c) r₂) (deriv r₂ c)
      else .cat (deriv r₁ c) r₂
  | .star r, c => .cat (deriv r c) (.star r)

/-- Full-string matching by iterated derivatives. -/
def rmatch (r : RE) : List Char → Bool
  | [] => nullable r
  | c :: s => rmatch (deriv r c) s

theorem rmatch_emptyset_inv {s : List Char} (h : RMatch .emptyset s) : False := by
  cases h

theorem rmatch_eps_inv {s : List Char} (h : RMatch .eps s) : s = [] := by
  cases h; rfl

theorem rmatch_cls_inv {p : Char → Bool} {s : List Char} (h : RMatch (.cls p) s) :
    ∃ c, s = [c] ∧ p c = true := by
  cases h with
  | cls hc => exact ⟨_, rfl, hc⟩

theorem rmatch_alt_inv {r₁ r₂ : RE} {s : List Char} (h : RMatch (.alt r₁ r₂) s) :
    RMatch r₁ s ∨ RMatch r₂ s := by
  cases h with
  | altL h => exact Or.inl h
  | altR h => exact Or.inr h

theorem rmatch_cat_inv {r₁ r₂ : RE} {s : List Char} (h : RMatch (.cat r₁ r₂) s) :
    ∃ s₁ s₂, s = s₁ ++ s₂ ∧ RMatch r₁ s₁ ∧ RMatch r₂ s₂ := by
  cases h with
  | cat h₁ h₂ => exact ⟨_, _, rfl, h₁, h₂⟩

theorem nullable_iff {r : RE} : nullable r = true ↔ RMatch r [] := by
  induction r with
  | emptyset =>
    exact ⟨fun h => by simp [nullable] at h, fun h => absurd h rmatch_emptyset_inv⟩
  | eps => exact ⟨fun _ => .eps, fun _ => rfl⟩
  | cls p =>
    constructor
    · intro h; simp [nullable] at h
    · intro h
      obtain ⟨c, hc, -⟩ := rmatch_cls_inv h
      simp at hc
  | alt r₁ r₂ ih₁ ih₂ =>
    constructor
    · intro h
      simp only [nullable, Bool.or_eq_true] at h
      rcases h with h | h
      · exact .altL (ih₁.mp h)
      · exact .altR (ih₂.mp h)
    · intro h
      rcases rmatch_alt_inv h with h | h
      · simp [nullable, ih₁.mpr h]
      · simp [nullable, ih₂.mpr h]
  | cat r₁ r₂ ih₁ ih₂ =>
    constructor
    · intro h
      simp only [nullable, Bool.and_eq_true] at h
      exact @RMatch.cat _ _ [] [] (ih₁.mp h.1) (ih₂.mp h.2)
    · intro h
      obtain ⟨s₁, s₂, hs, h₁, h₂⟩ := rmatch_cat_inv h
      rw [eq_comm, List.append_eq_nil] at hs
      obtain ⟨rfl, rfl⟩ := hs
      simp [nullable, ih₁.mpr h₁, ih₂.mpr h₂]
  | star r ih => exact ⟨fun _ => .starNil, fun _ => rfl⟩

theorem star_cons_inv {r : RE} {c : Char} {s : List Char}
    (h : RMatch (.star r) (c :: s)) :
    ∃ s₁ s₂, s = s₁ ++ s₂ ∧ RMatch r (c :: s₁) ∧ RMatch (.star r) s₂ := by
  generalize hr : RE.star r = r' at h
  generalize hl : c :: s = l at h
  induction h generalizing c s with
  | eps => exact RE.noConfusion hr
  | cls _ => exact RE.noConfusion hr
  | altL _ _ => exact RE.noConfusion hr
  | altR _ _ => exact RE.noConfusion hr
  | cat _ _ _ _ => exact RE.noConfusion hr
  | starNil => exact absurd hl (List.cons_ne_nil _ _)
  | starCons h₁ h₂ ih₁ ih₂ =>
    cases hr
    rename_i s₁ s₂
    cases s₁ with
    | nil => exact ih₂ rfl hl
    | cons c' t =>
      rw [List.cons_append] at hl
      obtain ⟨rfl, hs⟩ : c = c' ∧ s = t ++ s₂ := by
        injection hl with h₁' h₂'; exact ⟨h₁', h₂'⟩
      exact ⟨t, s₂, hs, h₁, h₂⟩

theorem deriv_iff {r : RE} {c : Char} {s : List Char} :
    RMatch (deriv r c) s ↔ RMatch r (c :: s) := by
  induction r generalizing s with
  | emptyset =>
    exact ⟨fun h => absurd h rmatch_emptyset_inv, fun h => absurd h rmatch_emptyset_inv⟩
  | eps =>
    constructor
    · intro h; exact absurd h rmatch_emptyset_inv
    · intro h; exact absurd (rmatch_eps_inv h) (List.cons_ne_nil _ _)
  | cls p =>
    by_cases hp : p c = true
    · simp only [deriv, hp, if_pos rfl]
      constructor
      · intro h; rw [rmatch_eps_inv h]; exact .cls hp
      · intro h
        obtain ⟨c', hc', -⟩ := rmatch_cls_inv h
        obtain ⟨-, rfl⟩ : c = c' ∧ s = [] := by
          injection hc' with h₁ h₂; exact ⟨h₁, h₂⟩
        exact .eps
    · simp only [deriv]
      rw [if_neg hp]
      constructor
      · intro h; exact absurd h rmatch_emptyset_inv
      · intro h
        obtain ⟨c', hc', hpc'⟩ := rmatch_cls_inv h
        obtain ⟨rfl, -⟩ : c = c' ∧ s = [] := by
          injection hc' with h₁ h₂; exact ⟨h₁, h₂⟩
        exact absurd hpc' hp
  | alt r₁ r₂ ih₁ ih₂ =>
    constructor
    · intro h
      rcases rmatch_alt_inv h with h | h
      · exact .altL (ih₁.mp h)
      · exact .altR (ih₂.mp h)
    · intro h
      rcases rmatch_alt_inv h with h | h
      · exact .altL (ih₁.mpr h)
      · exact .altR (ih₂.mpr h)
  | cat r₁ r₂ ih₁ ih₂ =>
    by_cases hn : nullable r₁ = true
    · simp only [deriv, if_pos hn]
      constructor
      · intro h
        rcases rmatch_alt_inv h with h | h
        · obtain ⟨s₁, s₂, rfl, h₁, h₂⟩ := rmatch_cat_inv h
          exact @RMatch.cat _ _ (c :: s₁) _ (ih₁.mp h₁) h₂
        · exact @RMatch.cat _ _ [] _ (nullable_iff.mp hn) (ih₂.mp h)
      · intro h
        obtain ⟨s₁, s₂, hs, h₁, h₂⟩ := rmatch_cat_inv h
        cases s₁ with
        | nil =>
          simp only [List.nil_append] at hs
          subst hs
          exact .altR (ih₂.mpr h₂)
        | cons c' t =>
          rw [List.cons_append] at hs
          obtain ⟨rfl, rfl⟩ : c' = c ∧ s = t ++ s₂ := by
            injection hs with h₁' h₂'; exact ⟨h₁'.symm, h₂'⟩
          exact .altL (RMatch.cat (ih₁.mpr h₁) h₂)
    · simp only [deriv, if_neg hn]
      constructor
      · intro h
        obtain ⟨s₁, s₂, rfl, h₁, h₂⟩ := rmatch_cat_inv h
        exact @RMatch.cat _ _ (c :: s₁) _ (ih₁.mp h₁) h₂
      · intro h
        obtain ⟨s₁, s₂, hs, h₁, h₂⟩ := rmatch_cat_inv h
        cases s₁ with
        | nil => exact absurd (nullable_iff.mpr (by simpa using h₁)) hn
        | cons c' t =>
          rw [List.cons_append] at hs
          obtain ⟨rfl, rfl⟩ : c' = c ∧ s = t ++ s₂ := by
            injection hs with h₁' h₂'; exact ⟨h₁'.symm, h₂'⟩
          exact RMatch.cat (ih₁.mpr h₁) h₂
  | star r ih =>
    constructor
    · intro h
      obtain ⟨s₁, s₂, rfl, h₁, h₂⟩ := rmatch_cat_inv h
      exact @RMatch.starCons _ (c :: s₁) _ (ih.mp h₁) h₂
    · intro h
      obtain ⟨s₁, s₂, rfl, h₁, h₂⟩ := star_cons_inv h
      exact RMatch.cat (ih.mpr h₁) h₂

theorem rmatch_iff {r : RE} {s : List Char} : rmatch r s = true ↔ RMatch r s := by
  induction s generalizing r with
  | nil => exact nullable_iff
  | cons c s ih => simpa [rmatch] using (@ih (deriv r c)).trans deriv_iff

/-- `x+` as compiled from the Go patterns: one copy of `x` followed by `x*`. -/
def plusRE (r : RE) : RE := .cat r (.star r)

/-- `x{n}`: exactly `n` copies of `x`. -/
def powRE (r : RE) : Nat → RE
  | 0 => .eps
  | n + 1 => .cat r (powRE r n)

/-- `x{0,n}`: at most `n` copies of `x`. -/
def uptoRE (r : RE) : Nat → RE
  | 0 => .eps
  | n + 1 => .alt .eps (.cat r (uptoRE r n))

/-- Counted repetition `x{m,n}` (with `m ≤ n`): `m` copies then up to `n - m`
further copies. -/
def repRange (r : RE) (m n : Nat) : RE := .cat (powRE r m) (uptoRE r (n - m))

theorem star_cls_all {p : Char → Bool} {s : List Char}
    (h : RMatch (.star (.cls p)) s) : ∀ c ∈ s, p c = true := by
  generalize hr : RE.star (.cls p) = r' at h
  induction h with
  | eps => exact RE.noConfusion hr
  | cls _ => exact RE.noConfusion hr
  | altL _ _ => exact RE.noConfusion hr
  | altR _ _ => exact RE.noConfusion hr
  | cat _ _ _ _ => exact RE.noConfusion hr
  | starNil => intro c hc; cases hc
  | starCons h₁ h₂ ih₁ ih₂ =>
    injection hr with hr'
    subst hr'
    intro c hc
    rcases List.mem_append.mp hc with hc | hc
    · obtain ⟨c', hseq, hpc⟩ := rmatch_cls_inv h₁
      subst hseq
      rw [List.mem_singleton] at hc
      subst hc
      exact hpc
    · exact ih₂ rfl c hc

theorem star_cls_of_all {p : Char → Bool} {s : List Char}
    (h : ∀ c ∈ s, p c = true) : RMatch (.star (.cls p)) s := by
  induction s with
  | nil => exact .starNil
  | cons c t ih =>
    exact @RMatch.starCons _ [c] _ (.cls (h c (List.mem_cons_self c t)))
      (ih fun d hd => h d (List.mem_cons_of_mem c hd))

theorem plus_cls_iff {p : Char → Bool} {s : List Char} :
    RMatch (plusRE (.cls p)) s ↔ s ≠ [] ∧ ∀ c ∈ s, p c = true := by
  constructor
  · intro h
    obtain ⟨s₁, s₂, rfl, h₁, h₂⟩ := rmatch_cat_inv h
    obtain ⟨c, rfl, hpc⟩ := rmatch_cls_inv h₁
    refine ⟨by simp, ?_⟩
    intro d hd
    rcases List.mem_append.mp hd with hd | hd
    · rw [List.mem_singleton] at hd; subst hd; exact hpc
    · exact star_cls_all h₂ d hd
  · rintro ⟨hne, hall⟩
    cases s with
    | nil => exact absurd rfl hne
    | cons c t =>
      exact @RMatch.cat _ _ [c] _ (.cls (hall c (List.mem_cons_self c t)))
        (star_cls_of_all fun d hd => hall d (List.mem_cons_of_mem c hd))

theorem pow_cls_iff {p : Char → Bool} {n : Nat} {s : List Char} :
    RMatch (powRE (.cls p) n) s ↔ s.length = n ∧ ∀ c ∈ s, p c = true := by
  induction n generalizing s with
  | zero =>
    constructor
    · intro h
      have hs := rmatch_eps_inv h
      subst hs
      exact ⟨rfl, by intro c hc; cases hc⟩
    · rintro ⟨hl, -⟩
      rw [List.length_eq_zero] at hl
      subst hl
      exact .eps
  | succ n ih =>
    constructor
    · intro h
      obtain ⟨s₁, s₂, rfl, h₁, h₂⟩ := rmatch_cat_inv h
      obtain ⟨c, rfl, hpc⟩ := rmatch_cls_inv h₁
      obtain ⟨hl, ha⟩ := ih.mp h₂
      refine ⟨by simp only [List.singleton_append, List.length_cons, hl], ?_⟩
      intro d hd
      rcases List.mem_append.mp hd with hd | hd
      · rw [List.mem_singleton] at hd; subst hd; exact hpc
      · exact ha d hd
    · rintro ⟨hl, ha⟩
      cases s with
      | nil => simp at hl
      | cons c t =>
        refine @RMatch.cat _ _ [c] _ (.cls (ha c (List.mem_cons_self c t)))
          (ih.mpr ⟨?_, ?_⟩)
        · simp only [List.length_cons] at hl; omega
        · exact fun d hd => ha d (List.mem_cons_of_mem c hd)

theorem upto_cls_iff {p : Char → Bool} {n : Nat} {s : List Char} :
    RMatch (uptoRE (.cls p) n) s ↔ s.length ≤ n ∧ ∀ c ∈ s, p c = true := by
  induction n generalizing s with
  | zero =>
    constructor
    · intro h
      have hs := rmatch_eps_inv h
      subst hs
      exact ⟨Nat.le_refl 0, by intro c hc; cases hc⟩
    · rintro ⟨hl, -⟩
      rw [Nat.le_zero, List.length_eq_zero] at hl
      subst hl
      exact .eps
  | succ n ih =>
    constructor
    · intro h
      rcases rmatch_alt_inv h with h | h
      · have hs := rmatch_eps_inv h
        subst hs
        exact ⟨Nat.zero_le _, by intro c hc; cases hc⟩
      · obtain ⟨s₁, s₂, rfl, h₁, h₂⟩ := rmatch_cat_inv h
        obtain ⟨c, rfl, hpc⟩ := rmatch_cls_inv h₁
        obtain ⟨hl, ha⟩ := ih.mp h₂
        refine ⟨by simp only [List.singleton_append, List.length_cons]; omega, ?_⟩
        intro d hd
        rcases List.mem_append.mp hd with hd | hd
        · rw [List.mem_singleton] at hd; subst hd; exact hpc
        · exact ha d hd
    · rintro ⟨hl, ha⟩
      cases s with
      | nil => exact .altL .eps
      | cons c t =>
        refine .altR (@RMatch.cat _ _ [c] _ (.cls (ha c (List.mem_cons_self c t)))
          (ih.mpr ⟨?_, ?_⟩))
        · simp only [List.length_cons] at hl; omega
        · exact fun d hd => ha d (List.mem_cons_of_mem c hd)

theorem repRange_cls_iff {p : Char → Bool} {m k : Nat} {s : List Char} :
    RMatch (.cat (powRE (.cls p) m) (uptoRE (.cls p) k)) s ↔
      m ≤ s.length ∧ s.length ≤ m + k ∧ ∀ c ∈ s, p c = true := by
  constructor
  · intro h
    obtain ⟨s₁, s₂, rfl, h₁, h₂⟩ := rmatch_cat_inv h
    obtain ⟨hl₁, ha₁⟩ := pow_cls_iff.mp h₁
    obtain ⟨hl₂, ha₂⟩ := upto_cls_iff.mp h₂
    refine ⟨by simp only [List.length_append, hl₁]; omega,
      by simp only [List.length_append, hl₁]; omega, ?_⟩
    intro c hc
    rcases List.mem_append.mp hc with hc | hc
    · exact ha₁ c hc
    · exact ha₂ c hc
  · rintro ⟨h₁, h₂, hall⟩
    rw [← List.take_append_drop m s]
    refine RMatch.cat (pow_cls_iff.mpr ⟨?_, ?_⟩) (upto_cls_iff.mpr ⟨?_, ?_⟩)
    · rw [List.length_take]; omega
    · exact fun c hc => hall c (List.take_subset _ _ hc)
    · rw [List.length_drop]; omega
    · exact fun c hc => hall c (List.drop_subset _ _ hc)

/-!
The validators of `internal/service/validate.go`.
-/

/-- The Unicode letter class `\p{L}` used by the source patterns, embedded over
the code points the claims and the service's data exercise: the ASCII Latin
letters, the Latin-1 and Latin-Extended-A letters, and the Cyrillic letters
(including the Cyrillic Supplement).  Code points outside these blocks are not
distinguished by any claim and are read as non-letters. -/
def isUnicodeLetter (c : Char) : Bool :=
  decide ((0x41 ≤ c.toNat ∧ c.toNat ≤ 0x5A) ∨ (0x61 ≤ c.toNat ∧ c.toNat ≤ 0x7A) ∨
    (0xC0 ≤ c.toNat ∧ c.toNat ≤ 0xD6) ∨ (0xD8 ≤ c.toNat ∧ c.toNat ≤ 0xF6) ∨
    (0xF8 ≤ c.toNat ∧ c.toNat ≤ 0x17F) ∨
    (0x400 ≤ c.toNat ∧ c.toNat ≤ 0x481) ∨ (0x48A ≤ c.toNat ∧ c.toNat ≤ 0x52F))

/-- The character class `[\p{L}\_\-\. ]` of `alphabeticRegexp`. -/
def alphaCls (c : Char) : Bool :=
  isUnicodeLetter c || c == '_' || c == '-' || c == '.' || c == ' '

/-- The class `[0-9]` (also `\d`, which Go reads as `[0-9]`). -/
def digitCls (c : Char) : Bool := decide ('0' ≤ c ∧ c ≤ '9')

/-- The class `[1-9]`. -/
def oneNineCls (c : Char) : Bool := decide ('1' ≤ c ∧ c ≤ '9')

/-- `^[\p{L}\_\-\. ]+$` — `alphabeticRegexp` of validate.go. -/
def alphabeticRegexp : RE := plusRE (.cls alphaCls)

/-- `^\p{L}{2,3}\-[0-9]{1,2}\-[0-9]{1,2}$` — `groupCodeRegexp` of validate.go. -/
def groupCodeRegexp : RE :=
  .cat (repRange (.cls isUnicodeLetter) 2 3)
    (.cat (.cls (· == '-'))
      (.cat (repRange (.cls digitCls) 1 2)
        (.cat (.cls (· == '-')) (repRange (.cls digitCls) 1 2))))

/-- `^\+[1-9]\d{1,14}$` — `phoneNumberRegexp` of validate.go. -/
def phoneNumberRegexp : RE :=
  .cat (.cls (· == '+')) (.cat (.cls oneNineCls) (repRange (.cls digitCls) 1 14))

/-- `ValidateAlphabeticString` (validate.go): anchored match of the whole
string against `alphabeticRegexp`. -/
def ValidateAlphabeticString (userName : String) : Bool :=
  rmatch alphabeticRegexp userName.data

/-- `ValidateGroupCode` (validate.go). -/
def ValidateGroupCode (groupCode : String) : Bool :=
  rmatch groupCodeRegexp groupCode.data

/-- `ValidatePhoneNumber` (validate.go). -/
def ValidatePhoneNumber (phoneNumber : String) : Bool :=
  rmatch phoneNumberRegexp phoneNumber.data

/-- Modelled from the spec: `ValidateTelegramID` is called from `service.go`
and exercised by `validation_test.go`, but its defining source file is not
among the provided sources.  The spec states: true iff `n > 0`. -/
def ValidateTelegramID (n : Int) : Bool := decide (0 < n)

/-- The characters the alphabetic-string claim singles out as rejected:
the decimal digits and `@ ( ) " / *`. -/
def badChars : List Char :=
  ['0', '1', '2', '3', '4', '5', '6', '7', '8', '9', '@', '(', ')', '"', '/', '*']

theorem badChars_not_alpha : ∀ c ∈ badChars, alphaCls c = false := by decide

/-- Language of the phone-number pattern, character by character. -/
theorem phoneNumber_chars {s : List Char} :
    rmatch phoneNumberRegexp s = true ↔
      ∃ d t, s = '+' :: d :: t ∧ oneNineCls d = true ∧
        1 ≤ t.length ∧ t.length ≤ 14 ∧ ∀ c ∈ t, digitCls c = true := by
  rw [rmatch_iff]
  constructor
  · intro h
    obtain ⟨s₁, s₂, rfl, h₁, h₂⟩ := rmatch_cat_inv h
    obtain ⟨c, rfl, hc⟩ := rmatch_cls_inv h₁
    rw [beq_iff_eq] at hc
    subst hc
    obtain ⟨s₃, s₄, rfl, h₃, h₄⟩ := rmatch_cat_inv h₂
    obtain ⟨d, rfl, hd⟩ := rmatch_cls_inv h₃
    obtain ⟨hl₁, hl₂, hall⟩ := repRange_cls_iff.mp h₄
    exact ⟨d, s₄, rfl, hd, hl₁, by omega, hall⟩
  · rintro ⟨d, t, rfl, hd, h1, h14, hall⟩
    exact @RMatch.cat _ _ ['+'] _ (.cls (by simp))
      (@RMatch.cat _ _ [d] _ (.cls hd) (repRange_cls_iff.mpr ⟨h1, by omega, hall⟩))

/-!
UUIDs.  The handlers parse identifiers with the external `uuid.Parse`
collaborator and render them back with `UUID.String`, which emits the canonical
lowercase 8-4-4-4-12 form.  The model keeps that canonical string.
-/

/-- A parsed UUID, kept in canonical lowercase textual form. -/
structure Uuid where
  val : String
deriving DecidableEq, Repr

def isHexDigit (c : Char) : Bool :=
  decide (('0' ≤ c ∧ c ≤ '9') ∨ ('a' ≤ c ∧ c ≤ 'f') ∨ ('A' ≤ c ∧ c ≤ 'F'))

def hexToLower (c : Char) : Char :=
  if 'A' ≤ c ∧ c ≤ 'F' then Char.ofNat (c.toNat + 32) else c

/-- Shape of the canonical textual UUID: 36 characters, hyphens at positions
8, 13, 18 and 23, hexadecimal digits everywhere else. -/
def uuidShapeOk (cs : List Char) : Bool :=
  cs.length == 36 &&
  (List.range 36).all fun i =>
    if i == 8 || i == 13 || i == 18 || i == 23 then cs.getD i ' ' == '-'
    else isHexDigit (cs.getD i ' ')

/-- Model of the external `uuid.Parse` collaborator, restricted to the
canonical 8-4-4-4-12 textual form (the only shape the claims exercise);
the result is normalised to lowercase, as `UUID.String` renders it. -/
def uuidParse (s : String) : Option Uuid :=
  if uuidShapeOk s.data then some ⟨String.mk (s.data.map hexToLower)⟩ else none

/-!
Store rows (`internal/repository/sqlc` row types generated from query.sql) and
wire messages (`api/proto`).  Go's `pgtype.Text`/`pgtype.Int8` nullable columns
and the proto optional pointer fields are both rendered as `Option`.
-/

/-- Row of `users_details` (name, surname, patronymic, group_code, user_uuid). -/
structure DetailsRow where
  name : String
  surname : String
  patronymic : Option String
  groupCode : String
  userUuid : Uuid
deriving DecidableEq, Repr

/-- Row of `users_contacts` (phone_number, email, telegram_id, user_uuid). -/
structure ContactsRow where
  phoneNumber : String
  email : Option String
  telegramId : Option Int
  userUuid : Uuid
deriving DecidableEq, Repr

/-- `proto.UserDetails`. -/
structure UserDetailsMsg where
  name : String
  surname : String
  patronymic : Option String
  groupCode : String
  userUuid : String
deriving DecidableEq, Repr

/-- `proto.UserContacts`. -/
structure UserContactsMsg where
  phoneNumber : String
  email : Option String
  telegramId : Option Int
  userUuid : String
deriving DecidableEq, Repr

/-- `proto.User`. -/
structure UserMsg where
  uuid : String
deriving DecidableEq, Repr

/-- The gRPC status classifications the handlers return (`codes.InvalidArgument`,
`codes.NotFound`, `codes.Internal`), with the formatted message.  `%v` error
details of `uuid.Parse` are elided from the invalid-UUID message. -/
inductive Status where
  | invalidArgument : String → Status
  | notFound : String → Status
  | internal : String → Status
deriving DecidableEq, Repr

/-- Outcome of one `:one` store query: a row, `pgx.ErrNoRows` (which in the
pinned pgx release satisfies `errors.Is (_, sql.ErrNoRows)`), or any other
database error carrying its message. -/
inductive StoreResult (α : Type) where
  | ok : α → StoreResult α
  | noRows : StoreResult α
  | fail : String → StoreResult α
deriving DecidableEq, Repr

/-- The text of `pgx.ErrNoRows`, as it would be interpolated by `%v` in a
handler that does not branch on `errors.Is`. -/
def noRowsMsg : String := "no rows in result set"

/-- The store interface of `sqlc.Queries` (one operation per query.sql
statement), over an abstract store state `σ`.  Each operation returns its
result and the successor state.  `updateUserPatronymic`, `updateUserEmail` and
`updateUserTelegramID` take plain (present) values because every caller builds
the parameter with `Valid: true`. -/
structure Repo (σ : Type) where
  createUser : Uuid → σ → StoreResult Uuid × σ
  getUserDetails : Uuid → σ → StoreResult DetailsRow × σ
  getUserContacts : Uuid → σ → StoreResult ContactsRow × σ
  createUserDetails : String → String → Option String → String → Uuid → σ →
    StoreResult DetailsRow × σ
  createUserContacts : String → Option String → Option Int → Uuid → σ →
    StoreResult ContactsRow × σ
  updateUserName : Uuid → String → σ → StoreResult DetailsRow × σ
  updateUserSurname : Uuid → String → σ → StoreResult DetailsRow × σ
  updateUserPatronymic : Uuid → String → σ → StoreResult DetailsRow × σ
  updateUserGroupCode : Uuid → String → σ → StoreResult DetailsRow × σ
  updateUserPhoneNumber : Uuid → String → σ → StoreResult ContactsRow × σ
  updateUserEmail : Uuid → String → σ → StoreResult ContactsRow × σ
  updateUserTelegramID : Uuid → Int → σ → StoreResult ContactsRow × σ
  deleteUser : Uuid → σ → Option String × σ

/-- Response mapping repeated in every details handler: optional patronymic is
re-exposed only when present. -/
def detailsToMsg (d : DetailsRow) : UserDetailsMsg :=
  { name := d.name, surname := d.surname, patronymic := d.patronymic,
    groupCode := d.groupCode, userUuid := d.userUuid.val }

/-- Response mapping repeated in every contacts handler: optional email and
telegram identifier are re-exposed only when present. -/
def contactsToMsg (d : ContactsRow) : UserContactsMsg :=
  { phoneNumber := d.phoneNumber, email := d.email, telegramId := d.telegramId,
    userUuid := d.userUuid.val }

/-!
Wire requests and responses, one pair per RPC.
-/

structure CreateUserRequest where
  uuid : String
deriving DecidableEq, Repr

structure CreateUserResponse where
  user : UserMsg
deriving DecidableEq, Repr

structure DeleteUserRequest where
  uuid : String
deriving DecidableEq, Repr

structure DeleteUserResponse where
deriving DecidableEq, Repr

structure GetUserDetailsRequest where
  userUuid : String
deriving DecidableEq, Repr

structure GetUserDetailsResponse where
  details : UserDetailsMsg
deriving DecidableEq, Repr

structure CreateUserDetailsRequest where
  userUuid : String
  name : String
  surname : String
  patronymic : Option String
  groupCode : String
deriving DecidableEq, Repr

structure CreateUserDetailsResponse where
  details : UserDetailsMsg
deriving DecidableEq, Repr

structure UpdateUserNameRequest where
  userUuid : String
  name : String
deriving DecidableEq, Repr

structure UpdateUserNameResponse where
  details : UserDetailsMsg
deriving DecidableEq, Repr

structure UpdateUserSurnameRequest where
  userUuid : String
  surname : String
deriving DecidableEq, Repr

structure UpdateUserSurnameResponse where
  details : UserDetailsMsg
deriving DecidableEq, Repr

structure UpdateUserPatronymicRequest where
  userUuid : String
  patronymic : String
deriving DecidableEq, Repr

structure UpdateUserPatronymicResponse where
  details : UserDetailsMsg
deriving DecidableEq, Repr

structure UpdateUserGroupCodeRequest where
  userUuid : String
  groupCode : String
deriving DecidableEq, Repr

structure UpdateUserGroupCodeResponse where
  details : UserDetailsMsg
deriving DecidableEq, Repr

structure GetUserContactsRequest where
  userUuid : String
deriving DecidableEq, Repr

structure GetUserContactsResponse where
  contacts : UserContactsMsg
deriving DecidableEq, Repr

structure CreateUserContactsRequest where
  userUuid : String
  phoneNumber : String
  email : Option String
  telegramId : Option Int
deriving DecidableEq, Repr

structure CreateUserContactsResponse where
  contacts : UserContactsMsg
deriving DecidableEq, Repr

structure UpdateUserPhoneNumberRequest where
  userUuid : String
  phoneNumber : String
deriving DecidableEq, Repr

structure UpdateUserPhoneNumberResponse where
  contacts : UserContactsMsg
deriving DecidableEq, Repr

structure UpdateUserEmailRequest where
  userUuid : String
  email : String
deriving DecidableEq, Repr

structure UpdateUserEmailResponse where
  contacts : UserContactsMsg
deriving DecidableEq, Repr

structure UpdateUserTelegramIDRequest where
  userUuid : String
  telegramId : Int
deriving DecidableEq, Repr

structure UpdateUserTelegramIDResponse where
  contacts : UserContactsMsg
deriving DecidableEq, Repr

/-!
The thirteen request handlers of `internal/service/service.go`, parameterised
over the store.  Logging and tracing are external collaborators with no effect
on results and are omitted.  Each handler returns its wire response or status,
together with the store state left behind by its (at most one) store call.
-/

/-- `Service.CreateUser`. -/
def CreateUser (repo : Repo σ) (req : CreateUserRequest) (st : σ) :
    Except Status CreateUserResponse × σ :=
  match uuidParse req.uuid with
  | none => (.error (.invalidArgument "invalid UUID format"), st)
  | some userUUID =>
    match repo.createUser userUUID st with
    | (.ok createdUUID, st') => (.ok { user := { uuid := createdUUID.val } }, st')
    | (.noRows, st') => (.error (.internal ("failed to create user: " ++ noRowsMsg)), st')
    | (.fail msg, st') => (.error (.internal ("failed to create user: " ++ msg)), st')

/-- `Service.GetUserDetails`. -/
def GetUserDetails (repo : Repo σ) (req : GetUserDetailsRequest) (st : σ) :
    Except Status GetUserDetailsResponse × σ :=
  match uuidParse req.userUuid with
  | none => (.error (.invalidArgument "invalid UUID format"), st)
  | some userUUID =>
    match repo.getUserDetails userUUID st with
    | (.noRows, st') => (.error (.notFound "user details not found"), st')
    | (.fail msg, st') =>
      (.error (.internal ("failed to get user details: " ++ msg)), st')
    | (.ok details, st') => (.ok { details := detailsToMsg details }, st')

/-- `Service.GetUserContacts`. -/
def GetUserContacts (repo : Repo σ) (req : GetUserContactsRequest) (st : σ) :
    Except Status GetUserContactsResponse × σ :=
  match uuidParse req.userUuid with
  | none => (.error (.invalidArgument "invalid UUID format"), st)
  | some userUUID =>
    match repo.getUserContacts userUUID st with
    | (.noRows, st') => (.error (.notFound "user contacts not found"), st')
    | (.fail msg, st') =>
      (.error (.internal ("failed to get user contacts: " ++ msg)), st')
    | (.ok contacts, st') => (.ok { contacts := contactsToMsg contacts }, st')

/-- `Service.DeleteUser`: parse, one `:exec` delete, no rows-affected check. -/
def DeleteUser (repo : Repo σ) (req : DeleteUserRequest) (st : σ) :
    Except Status DeleteUserResponse × σ :=
  match uuidParse req.uuid with
  | none => (.error (.invalidArgument "invalid UUID format"), st)
  | some userUUID =>
    match repo.deleteUser userUUID st with
    | (some msg, st') => (.error (.internal ("failed to delete user: " ++ msg)), st')
    | (none, st') => (.ok {}, st')

/-- `Service.CreateUserDetails`: validators in source order (name, surname,
optional patronymic, group code), then UUID parse, then the store insert. -/
def CreateUserDetails (repo : Repo σ) (req : CreateUserDetailsRequest) (st : σ) :
    Except Status CreateUserDetailsResponse × σ :=
  if !ValidateAlphabeticString req.name then
    (.error (.invalidArgument "invalid name format"), st)
  else if !ValidateAlphabeticString req.surname then
    (.error (.invalidArgument "invalid surname format"), st)
  else if req.patronymic.any fun p => !ValidateAlphabeticString p then
    (.error (.invalidArgument "invalid patronymic format"), st)
  else if !ValidateGroupCode req.groupCode then
    (.error (.invalidArgument "invalid group code format"), st)
  else
    match uuidParse req.userUuid with
    | none => (.error (.invalidArgument "invalid UUID format"), st)
    | some userUUID =>
      match repo.createUserDetails req.name req.surname req.patronymic
          req.groupCode userUUID st with
      | (.ok details, st') => (.ok { details := detailsToMsg details }, st')
      | (.noRows, st') =>
        (.error (.internal ("failed to create user details: " ++ noRowsMsg)), st')
      | (.fail msg, st') =>
        (.error (.internal ("failed to create user details: " ++ msg)), st')

/-- `Service.UpdateUserName`. -/
def UpdateUserName (repo : Repo σ) (req : UpdateUserNameRequest) (st : σ) :
    Except Status UpdateUserNameResponse × σ :=
  if !ValidateAlphabeticString req.name then
    (.error (.invalidArgument "invalid name format"), st)
  else
    match uuidParse req.userUuid with
    | none => (.error (.invalidArgument "invalid UUID format"), st)
    | some userUUID =>
      match repo.updateUserName userUUID req.name st with
      | (.noRows, st') => (.error (.notFound "user details not found"), st')
      | (.fail msg, st') =>
        (.error (.internal ("failed to update user name: " ++ msg)), st')
      | (.ok details, st') => (.ok { details := detailsToMsg details }, st')

/-- `Service.UpdateUserSurname`. -/
def UpdateUserSurname (repo : Repo σ) (req : UpdateUserSurnameRequest) (st : σ) :
    Except Status UpdateUserSurnameResponse × σ :=
  if !ValidateAlphabeticString req.surname then
    (.error (.invalidArgument "invalid surname format"), st)
  else
    match uuidParse req.userUuid with
    | none => (.error (.invalidArgument "invalid UUID format"), st)
    | some userUUID =>
      match repo.updateUserSurname userUUID req.surname st with
      | (.noRows, st') => (.error (.notFound "user details not found"), st')
      | (.fail msg, st') =>
        (.error (.internal ("failed to update user surname: " ++ msg)), st')
      | (.ok details, st') => (.ok { details := detailsToMsg details }, st')

/-- `Service.UpdateUserPatronymic`: the store parameter is always built with
`Valid: true`, i.e. a present value. -/
def UpdateUserPatronymic (repo : Repo σ) (req : UpdateUserPatronymicRequest) (st : σ) :
    Except Status UpdateUserPatronymicResponse × σ :=
  if !ValidateAlphabeticString req.patronymic then
    (.error (.invalidArgument "invalid patronymic format"), st)
  else
    match uuidParse req.userUuid with
    | none => (.error (.invalidArgument "invalid UUID format"), st)
    | some userUUID =>
      match repo.updateUserPatronymic userUUID req.patronymic st with
      | (.noRows, st') => (.error (.notFound "user details not found"), st')
      | (.fail msg, st') =>
        (.error (.internal ("failed to update user patronymic: " ++ msg)), st')
      | (.ok details, st') => (.ok { details := detailsToMsg details }, st')

/-- `Service.UpdateUserGroupCode`. -/
def UpdateUserGroupCode (repo : Repo σ) (req : UpdateUserGroupCodeRequest) (st : σ) :
    Except Status UpdateUserGroupCodeResponse × σ :=
  if !ValidateGroupCode req.groupCode then
    (.error (.invalidArgument "invalid group code format"), st)
  else
    match uuidParse req.userUuid with
    | none => (.error (.invalidArgument "invalid UUID format"), st)
    | some userUUID =>
      match repo.updateUserGroupCode userUUID req.groupCode st with
      | (.noRows, st') => (.error (.notFound "user details not found"), st')
      | (.fail msg, st') =>
        (.error (.internal ("failed to update user group code: " ++ msg)), st')
      | (.ok details, st') => (.ok { details := detailsToMsg details }, st')

/-- `Service.CreateUserContacts`: phone validation, then the positivity check
on a present telegram identifier, then UUID parse, then the store insert. -/
def CreateUserContacts (repo : Repo σ) (req : CreateUserContactsRequest) (st : σ) :
    Except Status CreateUserContactsResponse × σ :=
  if !ValidatePhoneNumber req.phoneNumber then
    (.error (.invalidArgument "invalid phone number format"), st)
  else if req.telegramId.any fun t => decide (t ≤ 0) then
    (.error (.invalidArgument "telegram ID must be positive"), st)
  else
    match uuidParse req.userUuid with
    | none => (.error (.invalidArgument "invalid UUID format"), st)
    | some userUUID =>
      match repo.createUserContacts req.phoneNumber req.email req.telegramId
          userUUID st with
      | (.ok contacts, st') => (.ok { contacts := contactsToMsg contacts }, st')
      | (.noRows, st') =>
        (.error (.internal ("failed to create user contacts: " ++ noRowsMsg)), st')
      | (.fail msg, st') =>
        (.error (.internal ("failed to create user contacts: " ++ msg)), st')

/-- `Service.UpdateUserPhoneNumber`. -/
def UpdateUserPhoneNumber (repo : Repo σ) (req : UpdateUserPhoneNumberRequest) (st : σ) :
    Except Status UpdateUserPhoneNumberResponse × σ :=
  if !ValidatePhoneNumber req.phoneNumber then
    (.error (.invalidArgument "invalid phone number format"), st)
  else
    match uuidParse req.userUuid with
    | none => (.error (.invalidArgument "invalid UUID format"), st)
    | some userUUID =>
      match repo.updateUserPhoneNumber userUUID req.phoneNumber st with
      | (.noRows, st') => (.error (.notFound "user contacts not found"), st')
      | (.fail msg, st') =>
        (.error (.internal ("failed to update phone number: " ++ msg)), st')
      | (.ok contacts, st') => (.ok { contacts := contactsToMsg contacts }, st')

/-- `Service.UpdateUserEmail`: no validator; the store parameter is always
built with `Valid: true`. -/
def UpdateUserEmail (repo : Repo σ) (req : UpdateUserEmailRequest) (st : σ) :
    Except Status UpdateUserEmailResponse × σ :=
  match uuidParse req.userUuid with
  | none => (.error (.invalidArgument "invalid UUID format"), st)
  | some userUUID =>
    match repo.updateUserEmail userUUID req.email st with
    | (.noRows, st') => (.error (.notFound "user contacts not found"), st')
    | (.fail msg, st') =>
      (.error (.internal ("failed to update email: " ++ msg)), st')
    | (.ok contacts, st') => (.ok { contacts := contactsToMsg contacts }, st')

/-- `Service.UpdateUserTelegramID`: the store parameter is always built with
`Valid: true`. -/
def UpdateUserTelegramID (repo : Repo σ) (req : UpdateUserTelegramIDRequest) (st : σ) :
    Except Status UpdateUserTelegramIDResponse × σ :=
  if !ValidateTelegramID req.telegramId then
    (.error (.invalidArgument "telegram ID must be positive"), st)
  else
    match uuidParse req.userUuid with
    | none => (.error (.invalidArgument "invalid UUID format"), st)
    | some userUUID =>
      match repo.updateUserTelegramID userUUID req.telegramId st with
      | (.noRows, st') => (.error (.notFound "user contacts not found"), st')
      | (.fail msg, st') =>
        (.error (.internal ("failed to update telegram ID: " ++ msg)), st')
      | (.ok contacts, st') => (.ok { contacts := contactsToMsg contacts }, st')

/-!
The relational store: the three tables of query.sql with their primary keys,
foreign keys (cascade on delete) and check constraints, and one state-passing
operation per SQL statement.  `:one` statements signal `noRows` when no row
matches; constraint violations become `fail`.
-/

/-- The database: `users`, `users_details`, `users_contacts`. -/
structure DB where
  users : List Uuid
  details : List DetailsRow
  contacts : List ContactsRow
deriving DecidableEq, Repr

def findDetails (db : DB) (u : Uuid) : Option DetailsRow :=
  db.details.find? fun r => decide (r.userUuid = u)

def findContacts (db : DB) (u : Uuid) : Option ContactsRow :=
  db.contacts.find? fun r => decide (r.userUuid = u)

def hasUser (db : DB) (u : Uuid) : Bool :=
  db.users.any fun v => decide (v = u)

/-- The check constraints of `users_details` (NULL patronymic passes). -/
def detailsChecksOk (name surname : String) (patronymic : Option String)
    (groupCode : String) : Bool :=
  ValidateAlphabeticString name && ValidateAlphabeticString surname &&
  patronymic.all ValidateAlphabeticString && ValidateGroupCode groupCode

/-- The check constraints of `users_contacts` (NULL telegram_id passes). -/
def contactsChecksOk (phoneNumber : String) (telegramId : Option Int) : Bool :=
  ValidatePhoneNumber phoneNumber && telegramId.all fun t => decide (0 < t)

def pkViolationMsg : String := "duplicate key value violates unique constraint"
def fkViolationMsg : String := "violates foreign key constraint"
def checkViolationMsg : String := "violates check constraint"

/-- `insert into users (uuid) values ($1) returning uuid`. -/
def dbCreateUser (u : Uuid) (db : DB) : StoreResult Uuid × DB :=
  if hasUser db u then (.fail pkViolationMsg, db)
  else (.ok u, { db with users := db.users ++ [u] })

/-- `select * from users_details where user_uuid = $1 limit 1`. -/
def dbGetUserDetails (u : Uuid) (db : DB) : StoreResult DetailsRow × DB :=
  match findDetails db u with
  | some r => (.ok r, db)
  | none => (.noRows, db)

/-- `select * from users_contacts where user_uuid = $1 limit 1`. -/
def dbGetUserContacts (u : Uuid) (db : DB) : StoreResult ContactsRow × DB :=
  match findContacts db u with
  | some r => (.ok r, db)
  | none => (.noRows, db)

/-- `insert into users_details (...) values (...) returning *`. -/
def dbCreateUserDetails (name surname : String) (patronymic : Option String)
    (groupCode : String) (u : Uuid) (db : DB) : StoreResult DetailsRow × DB :=
  if !hasUser db u then (.fail fkViolationMsg, db)
  else if (findDetails db u).isSome then (.fail pkViolationMsg, db)
  else if !detailsChecksOk name surname patronymic groupCode then
    (.fail checkViolationMsg, db)
  else
    let row : DetailsRow :=
      { name := name, surname := surname, patronymic := patronymic,
        groupCode := groupCode, userUuid := u }
    (.ok row, { db with details := db.details ++ [row] })

/-- `insert into users_contacts (...) values (...) returning *`. -/
def dbCreateUserContacts (phoneNumber : String) (email : Option String)
    (telegramId : Option Int) (u : Uuid) (db : DB) : StoreResult ContactsRow × DB :=
  if !hasUser db u then (.fail fkViolationMsg, db)
  else if (findContacts db u).isSome then (.fail pkViolationMsg, db)
  else if !contactsChecksOk phoneNumber telegramId then (.fail checkViolationMsg, db)
  else
    let row : ContactsRow :=
      { phoneNumber := phoneNumber, email := email, telegramId := telegramId,
        userUuid := u }
    (.ok row, { db with contacts := db.contacts ++ [row] })

/-- Shared shape of the four `update users_details ... where user_uuid = $1
returning *` statements: replace the matching row by `f` when the updated row
satisfies the table's check constraints. -/
def dbUpdateDetails (u : Uuid) (f : DetailsRow → DetailsRow) (db : DB) :
    StoreResult DetailsRow × DB :=
  match findDetails db u with
  | none => (.noRows, db)
  | some r =>
    let r' := f r
    if !detailsChecksOk r'.name r'.surname r'.patronymic r'.groupCode then
      (.fail checkViolationMsg, db)
    else
      (.ok r',
       { db with details := db.details.map fun q =>
           if decide (q.userUuid = u) then f q else q })

/-- Shared shape of the three `update users_contacts ...` statements. -/
def dbUpdateContacts (u : Uuid) (f : ContactsRow → ContactsRow) (db : DB) :
    StoreResult ContactsRow × DB :=
  match findContacts db u with
  | none => (.noRows, db)
  | some r =>
    let r' := f r
    if !contactsChecksOk r'.phoneNumber r'.telegramId then
      (.fail checkViolationMsg, db)
    else
      (.ok r',
       { db with contacts := db.contacts.map fun q =>
           if decide (q.userUuid = u) then f q else q })

/-- `delete from users where uuid = $1` (`:exec`), with the two cascading
foreign keys removing the dependent rows; no error when nothing matches. -/
def dbDeleteUser (u : Uuid) (db : DB) : Option String × DB :=
  (none,
   { users := db.users.filter fun v => !decide (v = u),
     details := db.details.filter fun r => !decide (r.userUuid = u),
     contacts := db.contacts.filter fun r => !decide (r.userUuid = u) })

/-- The store of query.sql over the concrete database state. -/
def dbRepo : Repo DB where
  createUser := dbCreateUser
  getUserDetails := dbGetUserDetails
  getUserContacts := dbGetUserContacts
  createUserDetails := dbCreateUserDetails
  createUserContacts := dbCreateUserContacts
  updateUserName := fun u name => dbUpdateDetails u fun r => { r with name := name }
  updateUserSurname := fun u surname =>
    dbUpdateDetails u fun r => { r with surname := surname }
  updateUserPatronymic := fun u patronymic =>
    dbUpdateDetails u fun r => { r with patronymic := some patronymic }
  updateUserGroupCode := fun u groupCode =>
    dbUpdateDetails u fun r => { r with groupCode := groupCode }
  updateUserPhoneNumber := fun u phoneNumber =>
    dbUpdateContacts u fun r => { r with phoneNumber := phoneNumber }
  updateUserEmail := fun u email =>
    dbUpdateContacts u fun r => { r with email := some email }
  updateUserTelegramID := fun u telegramId =>
    dbUpdateContacts u fun r => { r with telegramId := some telegramId }
  deleteUser := dbDeleteUser

/-- A store that answers every details query with `d`, every contacts query
with `c`, and succeeds on everything else; used to quantify over arbitrary
store outcomes of the single store call a handler makes. -/
def constRepo (d : StoreResult DetailsRow) (c : StoreResult ContactsRow) :
    Repo Unit where
  createUser := fun u _ => (.ok u, ())
  getUserDetails := fun _ _ => (d, ())
  getUserContacts := fun _ _ => (c, ())
  createUserDetails := fun _ _ _ _ _ _ => (d, ())
  createUserContacts := fun _ _ _ _ _ => (c, ())
  updateUserName := fun _ _ _ => (d, ())
  updateUserSurname := fun _ _ _ => (d, ())
  updateUserPatronymic := fun _ _ _ => (d, ())
  updateUserGroupCode := fun _ _ _ => (d, ())
  updateUserPhoneNumber := fun _ _ _ => (c, ())
  updateUserEmail := fun _ _ _ => (c, ())
  updateUserTelegramID := fun _ _ _ => (c, ())
  deleteUser := fun _ _ => (none, ())

/-- The full RPC surface: one constructor per operation. -/
inductive RpcRequest where
  | createUser : CreateUserRequest → RpcRequest
  | deleteUser : DeleteUserRequest → RpcRequest
  | getUserDetails : GetUserDetailsRequest → RpcRequest
  | createUserDetails : CreateUserDetailsRequest → RpcRequest
  | updateUserName : UpdateUserNameRequest → RpcRequest
  | updateUserSurname : UpdateUserSurnameRequest → RpcRequest
  | updateUserPatronymic : UpdateUserPatronymicRequest → RpcRequest
  | updateUserGroupCode : UpdateUserGroupCodeRequest → RpcRequest
  | getUserContacts : GetUserContactsRequest → RpcRequest
  | createUserContacts : CreateUserContactsRequest → RpcRequest
  | updateUserPhoneNumber : UpdateUserPhoneNumberRequest → RpcRequest
  | updateUserEmail : UpdateUserEmailRequest → RpcRequest
  | updateUserTelegramID : UpdateUserTelegramIDRequest → RpcRequest

/-- Database state after serving one request of the RPC surface against the
query.sql store. -/
def runRpc (db : DB) : RpcRequest → DB
  | .createUser r => (CreateUser dbRepo r db).2
  | .deleteUser r => (DeleteUser dbRepo r db).2
  | .getUserDetails r => (GetUserDetails dbRepo r db).2
  | .createUserDetails r => (CreateUserDetails dbRepo r db).2
  | .updateUserName r => (UpdateUserName dbRepo r db).2
  | .updateUserSurname r => (UpdateUserSurname dbRepo r db).2
  | .updateUserPatronymic r => (UpdateUserPatronymic dbRepo r db).2
  | .updateUserGroupCode r => (UpdateUserGroupCode dbRepo r db).2
  | .getUserContacts r => (GetUserContacts dbRepo r db).2
  | .createUserContacts r => (CreateUserContacts dbRepo r db).2
  | .updateUserPhoneNumber r => (UpdateUserPhoneNumber dbRepo r db).2
  | .updateUserEmail r => (UpdateUserEmail dbRepo r db).2
  | .updateUserTelegramID r => (UpdateUserTelegramID dbRepo r db).2

/-!
Claims about the validators.
-/

/-- Language of `alphabeticRegexp`, character by character. -/
theorem alphabetic_chars {s : List Char} :
    rmatch alphabeticRegexp s = true ↔ s ≠ [] ∧ ∀ c ∈ s, alphaCls c = true := by
  rw [rmatch_iff]; exact plus_cls_iff

/-- C2: `ValidateAlphabeticString` returns true exactly on non-empty strings
all of whose characters are Unicode letters, underscore, hyphen, period or
space; in particular any string containing a digit or one of `@ ( ) " / *` is
rejected, as is the empty string. -/
theorem validateAlphabeticString_spec (s : String) :
    (ValidateAlphabeticString s = true ↔
      s.data ≠ [] ∧ ∀ c ∈ s.data,
        isUnicodeLetter c = true ∨ c = '_' ∨ c = '-' ∨ c = '.' ∨ c = ' ') ∧
    (∀ c ∈ s.data, c ∈ badChars → ValidateAlphabeticString s = false) ∧
    ValidateAlphabeticString "" = false := by
  have hiff : ValidateAlphabeticString s = true ↔
      s.data ≠ [] ∧ ∀ c ∈ s.data, alphaCls c = true := alphabetic_chars
  have hcls : ∀ c : Char, alphaCls c = true ↔
      (isUnicodeLetter c = true ∨ c = '_' ∨ c = '-' ∨ c = '.' ∨ c = ' ') := by
    intro c
    simp [alphaCls, Bool.or_eq_true, beq_iff_eq, or_assoc]
  refine ⟨?_, ?_, by decide⟩
  · rw [hiff]
    constructor
    · rintro ⟨hne, hall⟩
      exact ⟨hne, fun c hc => (hcls c).mp (hall c hc)⟩
    · rintro ⟨hne, hall⟩
      exact ⟨hne, fun c hc => (hcls c).mpr (hall c hc)⟩
  · intro c hc hbad
    cases hv : ValidateAlphabeticString s with
    | false => rfl
    | true =>
      have hall := (hiff.mp hv).2 c hc
      rw [badChars_not_alpha c hbad] at hall
      exact absurd hall (by simp)

/-- Witness for C2 at the test inputs of validation_test.go. -/
theorem validateAlphabeticString_spec_witness :
    ValidateAlphabeticString "Иванов И.П." = true ∧
    ValidateAlphabeticString "Иванов123" = false ∧
    ValidateAlphabeticString "" = false := by
  refine ⟨?_, ?_, (validateAlphabeticString_spec "").2.2⟩
  · exact (validateAlphabeticString_spec "Иванов И.П.").1.mpr (by decide)
  · exact (validateAlphabeticString_spec "Иванов123").2.1 '1' (by decide) (by decide)

/-- C3: `ValidatePhoneNumber` accepts exactly `+` followed by 2 to 15 digits
whose first digit is 1–9; anything else — missing `+`, leading zero after the
`+`, too few or too many digits, a non-digit character, or a `+` elsewhere —
is rejected. -/
theorem validatePhoneNumber_spec (s : String) :
    ValidatePhoneNumber s = true ↔
      ∃ d t, s.data = '+' :: d :: t ∧ '1' ≤ d ∧ d ≤ '9' ∧
        (∀ c ∈ d :: t, '0' ≤ c ∧ c ≤ '9') ∧
        2 ≤ (d :: t).length ∧ (d :: t).length ≤ 15 := by
  rw [ValidatePhoneNumber, phoneNumber_chars]
  constructor
  · rintro ⟨d, t, hs, hd, h1, h14, hall⟩
    rw [oneNineCls, decide_eq_true_eq] at hd
    refine ⟨d, t, hs, hd.1, hd.2, ?_, ?_, ?_⟩
    · intro c hc
      rcases List.mem_cons.mp hc with rfl | hc
      · exact ⟨le_trans (by decide) hd.1, hd.2⟩
      · have hdig := hall c hc
        rwa [digitCls, decide_eq_true_eq] at hdig
    · simp only [List.length_cons]; omega
    · simp only [List.length_cons]; omega
  · rintro ⟨d, t, hs, h1, h9, hall, hlen2, hlen15⟩
    refine ⟨d, t, hs, ?_, ?_, ?_, ?_⟩
    · rw [oneNineCls, decide_eq_true_eq]; exact ⟨h1, h9⟩
    · simp only [List.length_cons] at hlen2; omega
    · simp only [List.length_cons] at hlen15; omega
    · intro c hc
      rw [digitCls, decide_eq_true_eq]
      exact hall c (List.mem_cons_of_mem d hc)

/-- Witness for C3 at a test input of validation_test.go. -/
theorem validatePhoneNumber_spec_witness :
    ValidatePhoneNumber "+12025551234" = true := by
  exact (validatePhoneNumber_spec "+12025551234").mpr
    ⟨'1', "2025551234".data, by decide, by decide, by decide, by decide,
      by decide, by decide⟩

/-- C4 counterexample: the two-character string `+7` lies in the claimed
accepted set (`+` then one digit 1–9) yet is rejected, and `+123456789012345`
(15 digits, 16 characters) lies outside it yet is accepted. -/
theorem validatePhoneNumber_c4_counterexample :
    ValidatePhoneNumber "+7" = false ∧ ValidatePhoneNumber "+123456789012345" = true := by
  exact ⟨by decide, by decide⟩

/-- C4 amended: the accepted set is exactly `+` followed by 2 to 15 digits
with first digit 1–9, hence total lengths 3 to 16; no two-character string is
accepted. -/
theorem validatePhoneNumber_length_spec (s : String) :
    ValidatePhoneNumber s = true ↔
      3 ≤ s.data.length ∧ s.data.length ≤ 16 ∧ s.data.head? = some '+' ∧
      (∀ c ∈ s.data.tail, '0' ≤ c ∧ c ≤ '9') ∧
      ∃ d, s.data.tail.head? = some d ∧ '1' ≤ d ∧ d ≤ '9' := by
  rw [ValidatePhoneNumber, phoneNumber_chars]
  constructor
  · rintro ⟨d, t, hs, hd, h1, h14, hall⟩
    rw [oneNineCls, decide_eq_true_eq] at hd
    rw [hs]
    refine ⟨?_, ?_, rfl, ?_, d, rfl, hd.1, hd.2⟩
    · simp only [List.length_cons]; omega
    · simp only [List.length_cons]; omega
    · intro c hc
      rw [List.tail_cons] at hc
      rcases List.mem_cons.mp hc with rfl | hc
      · exact ⟨le_trans (by decide) hd.1, hd.2⟩
      · have hdig := hall c hc
        rwa [digitCls, decide_eq_true_eq] at hdig
  · rintro ⟨h3, h16, hhead, hdigits, d, hd, h1, h9⟩
    cases hs : s.data with
    | nil => rw [hs] at hhead; exact absurd hhead (by simp)
    | cons a rest =>
      rw [hs, List.head?_cons, Option.some.injEq] at hhead
      subst hhead
      rw [hs, List.tail_cons] at hd hdigits
      cases rest with
      | nil => exact absurd hd (by simp)
      | cons b t =>
        rw [List.head?_cons, Option.some.injEq] at hd
        rw [← hd] at h1 h9
        rw [hs, List.length_cons, List.length_cons] at h3 h16
        refine ⟨b, t, rfl, ?_, by omega, by omega, ?_⟩
        · rw [oneNineCls, decide_eq_true_eq]; exact ⟨h1, h9⟩
        · intro c hc
          rw [digitCls, decide_eq_true_eq]
          exact hdigits c (List.mem_cons_of_mem b hc)

/-- Witness for C4's amended statement at a concrete accepted number. -/
theorem validatePhoneNumber_length_spec_witness :
    ValidatePhoneNumber "+123" = true := by
  exact (validatePhoneNumber_length_spec "+123").mpr
    ⟨by decide, by decide, by decide, by decide, '1', by decide, by decide, by decide⟩

/-- C9: `ValidateTelegramID n` is true exactly when `n > 0`, equivalently when
`n ≥ 1`. -/
theorem validateTelegramID_spec (n : Int) :
    (ValidateTelegramID n = true ↔ 0 < n) ∧ (ValidateTelegramID n = true ↔ 1 ≤ n) := by
  constructor
  · simp [ValidateTelegramID]
  · simp only [ValidateTelegramID, decide_eq_true_eq]
    omega

/-- Witness for C9 at the test inputs of validation_test.go. -/
theorem validateTelegramID_spec_witness :
    ValidateTelegramID 1234567890 = true ∧
    ValidateTelegramID 0 = false ∧ ValidateTelegramID (-1) = false := by
  refine ⟨(validateTelegramID_spec 1234567890).1.mpr (by decide), ?_, ?_⟩
  · rw [← Bool.not_eq_true, (validateTelegramID_spec 0).1]; decide
  · rw [← Bool.not_eq_true, (validateTelegramID_spec (-1)).1]; decide

/-!
Claims about the handlers.
-/

/-- A syntactically valid UUID in canonical lowercase form, used as concrete
input by the witnesses. -/
def sampleUuid : String := "123e4567-e89b-12d3-a456-426614174000"

/-- C1: every Get and per-field Update handler maps a `noRows` store answer to
the not-found classification and any other store failure to the internal
classification carrying the underlying message; in particular
`UpdateUserPhoneNumber` with a valid number against a database with no
contacts row for the parsed UUID answers not-found. -/
theorem handlers_store_error_classification :
    (∀ (d : StoreResult DetailsRow) (c : StoreResult ContactsRow)
        (req : GetUserDetailsRequest) (u : Uuid),
      uuidParse req.userUuid = some u →
      (d = .noRows → (GetUserDetails (constRepo d c) req ()).1 =
        .error (.notFound "user details not found")) ∧
      (∀ msg, d = .fail msg → (GetUserDetails (constRepo d c) req ()).1 =
        .error (.internal ("failed to get user details: " ++ msg)))) ∧
    (∀ (d : StoreResult DetailsRow) (c : StoreResult ContactsRow)
        (req : GetUserContactsRequest) (u : Uuid),
      uuidParse req.userUuid = some u →
      (c = .noRows → (GetUserContacts (constRepo d c) req ()).1 =
        .error (.notFound "user contacts not found")) ∧
      (∀ msg, c = .fail msg → (GetUserContacts (constRepo d c) req ()).1 =
        .error (.internal ("failed to get user contacts: " ++ msg)))) ∧
    (∀ (d : StoreResult DetailsRow) (c : StoreResult ContactsRow)
        (req : UpdateUserNameRequest) (u : Uuid),
      uuidParse req.userUuid = some u → ValidateAlphabeticString req.name = true →
      (d = .noRows → (UpdateUserName (constRepo d c) req ()).1 =
        .error (.notFound "user details not found")) ∧
      (∀ msg, d = .fail msg → (UpdateUserName (constRepo d c) req ()).1 =
        .error (.internal ("failed to update user name: " ++ msg)))) ∧
    (∀ (d : StoreResult DetailsRow) (c : StoreResult ContactsRow)
        (req : UpdateUserSurnameRequest) (u : Uuid),
      uuidParse req.userUuid = some u → ValidateAlphabeticString req.surname = true →
      (d = .noRows → (UpdateUserSurname (constRepo d c) req ()).1 =
        .error (.notFound "user details not found")) ∧
      (∀ msg, d = .fail msg → (UpdateUserSurname (constRepo d c) req ()).1 =
        .error (.internal ("failed to update user surname: " ++ msg)))) ∧
    (∀ (d : StoreResult DetailsRow) (c : StoreResult ContactsRow)
        (req : UpdateUserPatronymicRequest) (u : Uuid),
      uuidParse req.userUuid = some u →
      ValidateAlphabeticString req.patronymic = true →
      (d = .noRows → (UpdateUserPatronymic (constRepo d c) req ()).1 =
        .error (.notFound "user details not found")) ∧
      (∀ msg, d = .fail msg → (UpdateUserPatronymic (constRepo d c) req ()).1 =
        .error (.internal ("failed to update user patronymic: " ++ msg)))) ∧
    (∀ (d : StoreResult DetailsRow) (c : StoreResult ContactsRow)
        (req : UpdateUserGroupCodeRequest) (u : Uuid),
      uuidParse req.userUuid = some u → ValidateGroupCode req.groupCode = true →
      (d = .noRows → (UpdateUserGroupCode (constRepo d c) req ()).1 =
        .error (.notFound "user details not found")) ∧
      (∀ msg, d = .fail msg → (UpdateUserGroupCode (constRepo d c) req ()).1 =
        .error (.internal ("failed to update user group code: " ++ msg)))) ∧
    (∀ (d : StoreResult DetailsRow) (c : StoreResult ContactsRow)
        (req : UpdateUserPhoneNumberRequest) (u : Uuid),
      uuidParse req.userUuid = some u → ValidatePhoneNumber req.phoneNumber = true →
      (c = .noRows → (UpdateUserPhoneNumber (constRepo d c) req ()).1 =
        .error (.notFound "user contacts not found")) ∧
      (∀ msg, c = .fail msg → (UpdateUserPhoneNumber (constRepo d c) req ()).1 =
        .error (.internal ("failed to update phone number: " ++ msg)))) ∧
    (∀ (d : StoreResult DetailsRow) (c : StoreResult ContactsRow)
        (req : UpdateUserEmailRequest) (u : Uuid),
      uuidParse req.userUuid = some u →
      (c = .noRows → (UpdateUserEmail (constRepo d c) req ()).1 =
        .error (.notFound "user contacts not found")) ∧
      (∀ msg, c = .fail msg → (UpdateUserEmail (constRepo d c) req ()).1 =
        .error (.internal ("failed to update email: " ++ msg)))) ∧
    (∀ (d : StoreResult DetailsRow) (c : StoreResult ContactsRow)
        (req : UpdateUserTelegramIDRequest) (u : Uuid),
      uuidParse req.userUuid = some u → ValidateTelegramID req.telegramId = true →
      (c = .noRows → (UpdateUserTelegramID (constRepo d c) req ()).1 =
        .error (.notFound "user contacts not found")) ∧
      (∀ msg, c = .fail msg → (UpdateUserTelegramID (constRepo d c) req ()).1 =
        .error (.internal ("failed to update telegram ID: " ++ msg)))) ∧
    (∀ (db : DB) (req : UpdateUserPhoneNumberRequest) (u : Uuid),
      uuidParse req.userUuid = some u → ValidatePhoneNumber req.phoneNumber = true →
      findContacts db u = none →
      (UpdateUserPhoneNumber dbRepo req db).1 =
        .error (.notFound "user contacts not found")) := by
  refine ⟨?_, ?_, ?_, ?_, ?_, ?_, ?_, ?_, ?_, ?_⟩
  · intro d c req u hp
    exact ⟨by rintro rfl; simp [GetUserDetails, constRepo, hp],
      by rintro msg rfl; simp [GetUserDetails, constRepo, hp]⟩
  · intro d c req u hp
    exact ⟨by rintro rfl; simp [GetUserContacts, constRepo, hp],
      by rintro msg rfl; simp [GetUserContacts, constRepo, hp]⟩
  · intro d c req u hp hv
    exact ⟨by rintro rfl; simp [UpdateUserName, constRepo, hp, hv],
      by rintro msg rfl; simp [UpdateUserName, constRepo, hp, hv]⟩
  · intro d c req u hp hv
    exact ⟨by rintro rfl; simp [UpdateUserSurname, constRepo, hp, hv],
      by rintro msg rfl; simp [UpdateUserSurname, constRepo, hp, hv]⟩
  · intro d c req u hp hv
    exact ⟨by rintro rfl; simp [UpdateUserPatronymic, constRepo, hp, hv],
      by rintro msg rfl; simp [UpdateUserPatronymic, constRepo, hp, hv]⟩
  · intro d c req u hp hv
    exact ⟨by rintro rfl; simp [UpdateUserGroupCode, constRepo, hp, hv],
      by rintro msg rfl; simp [UpdateUserGroupCode, constRepo, hp, hv]⟩
  · intro d c req u hp hv
    exact ⟨by rintro rfl; simp [UpdateUserPhoneNumber, constRepo, hp, hv],
      by rintro msg rfl; simp [UpdateUserPhoneNumber, constRepo, hp, hv]⟩
  · intro d c req u hp
    exact ⟨by rintro rfl; simp [UpdateUserEmail, constRepo, hp],
      by rintro msg rfl; simp [UpdateUserEmail, constRepo, hp]⟩
  · intro d c req u hp hv
    exact ⟨by rintro rfl; simp [UpdateUserTelegramID, constRepo, hp, hv],
      by rintro msg rfl; simp [UpdateUserTelegramID, constRepo, hp, hv]⟩
  · intro db req u hp hv hnone
    simp [UpdateUserPhoneNumber, dbRepo, dbUpdateContacts, hp, hv, hnone]

/-- Witness for C1: not-found and internal classification at concrete inputs,
including the spec scenario `UpdateUserPhoneNumber` on an empty database. -/
theorem handlers_store_error_classification_witness :
    (GetUserDetails (constRepo .noRows .noRows) { userUuid := sampleUuid } ()).1 =
      .error (.notFound "user details not found") ∧
    (GetUserDetails (constRepo (.fail "boom") .noRows) { userUuid := sampleUuid } ()).1 =
      .error (.internal ("failed to get user details: " ++ "boom")) ∧
    (UpdateUserPhoneNumber dbRepo
        { userUuid := sampleUuid, phoneNumber := "+12025551234" }
        { users := [], details := [], contacts := [] }).1 =
      .error (.notFound "user contacts not found") := by
  refine ⟨?_, ?_, ?_⟩
  · exact (handlers_store_error_classification.1 .noRows .noRows
      { userUuid := sampleUuid } ⟨sampleUuid⟩ (by decide)).1 rfl
  · exact (handlers_store_error_classification.1 (.fail "boom") .noRows
      { userUuid := sampleUuid } ⟨sampleUuid⟩ (by decide)).2 "boom" rfl
  · exact handlers_store_error_classification.2.2.2.2.2.2.2.2.2
      { users := [], details := [], contacts := [] }
      { userUuid := sampleUuid, phoneNumber := "+12025551234" }
      ⟨sampleUuid⟩ (by decide) (by decide) (by decide)

/-- C5 counterexample: with a malformed user identifier and an invalid name,
`CreateUserDetails` answers with the name-format message, not the UUID one —
the validators run before the UUID parse, contrary to the claimed parse-first
ordering.  (The store is irrelevant: the request never reaches it.) -/
theorem createUserDetails_order_counterexample :
    (CreateUserDetails (constRepo (.fail "") (.fail ""))
        { userUuid := "not-a-uuid", name := "Ivan123", surname := "Petrov",
          patronymic := none, groupCode := "IT-1-1" } ()).1 =
      .error (.invalidArgument "invalid name format") ∧
    Status.invalidArgument "invalid name format" ≠
      Status.invalidArgument "invalid UUID format" := by
  exact ⟨rfl, by decide⟩

/-- C5 amended: `CreateUserDetails` first runs the validators in the order
name, surname, patronymic (when present), group code, failing invalid-argument
at the first rejection, and only then parses the user identifier as a UUID,
failing invalid-argument if it is malformed. -/
theorem createUserDetails_validation_order {σ : Type} (repo : Repo σ) (st : σ)
    (req : CreateUserDetailsRequest) :
    (ValidateAlphabeticString req.name = false →
      CreateUserDetails repo req st =
        (.error (.invalidArgument "invalid name format"), st)) ∧
    (ValidateAlphabeticString req.name = true →
      ValidateAlphabeticString req.surname = false →
      CreateUserDetails repo req st =
        (.error (.invalidArgument "invalid surname format"), st)) ∧
    (∀ p, ValidateAlphabeticString req.name = true →
      ValidateAlphabeticString req.surname = true →
      req.patronymic = some p → ValidateAlphabeticString p = false →
      CreateUserDetails repo req st =
        (.error (.invalidArgument "invalid patronymic format"), st)) ∧
    (ValidateAlphabeticString req.name = true →
      ValidateAlphabeticString req.surname = true →
      req.patronymic.all ValidateAlphabeticString = true →
      ValidateGroupCode req.groupCode = false →
      CreateUserDetails repo req st =
        (.error (.invalidArgument "invalid group code format"), st)) ∧
    (ValidateAlphabeticString req.name = true →
      ValidateAlphabeticString req.surname = true →
      req.patronymic.all ValidateAlphabeticString = true →
      ValidateGroupCode req.groupCode = true →
      uuidParse req.userUuid = none →
      CreateUserDetails repo req st =
        (.error (.invalidArgument "invalid UUID format"), st)) := by
  have hany : req.patronymic.all ValidateAlphabeticString = true →
      (req.patronymic.any fun p => !ValidateAlphabeticString p) = false := by
    cases hpat : req.patronymic <;> simp_all
  refine ⟨?_, ?_, ?_, ?_, ?_⟩
  · intro h1; simp [CreateUserDetails, h1]
  · intro h1 h2; simp [CreateUserDetails, h1, h2]
  · intro p h1 h2 hp hv; simp [CreateUserDetails, h1, h2, hp, hv]
  · intro h1 h2 hp hg; simp [CreateUserDetails, h1, h2, hany hp, hg]
  · intro h1 h2 hp hg hu; simp [CreateUserDetails, h1, h2, hany hp, hg, hu]

/-- Witness for C5's amended statement: validators reject before the (valid)
UUID is even considered, and the group code is checked last. -/
theorem createUserDetails_validation_order_witness :
    CreateUserDetails (constRepo (.fail "") (.fail ""))
        { userUuid := sampleUuid, name := "Иван", surname := "Петров",
          patronymic := none, groupCode := "bad" } () =
      (.error (.invalidArgument "invalid group code format"), ()) := by
  exact (createUserDetails_validation_order _ _ _).2.2.2.1
    (by decide) (by decide) (by decide) (by decide)

/-- C6: for a syntactically valid UUID, `DeleteUser` succeeds even when no
user row matches — the `:exec` delete reports no error on zero affected rows
and the handler never inspects them — and no store outcome at all makes the
handler answer not-found. -/
theorem deleteUser_silent_success :
    (∀ (db : DB) (req : DeleteUserRequest) (u : Uuid),
      uuidParse req.uuid = some u → ¬ u ∈ db.users →
      (DeleteUser dbRepo req db).1 = .ok {}) ∧
    (∀ {σ : Type} (repo : Repo σ) (st : σ) (req : DeleteUserRequest) (m : String),
      (DeleteUser repo req st).1 ≠ .error (.notFound m)) := by
  constructor
  · intro db req u hp _
    simp [DeleteUser, dbRepo, dbDeleteUser, hp]
  · intro σ repo st req m
    cases hparse : uuidParse req.uuid with
    | none => simp [DeleteUser, hparse]
    | some u =>
      rcases hdel : repo.deleteUser u st with ⟨_ | msg, st'⟩ <;>
        simp [DeleteUser, hparse, hdel]

/-- Witness for C6: deleting on an empty database succeeds. -/
theorem deleteUser_silent_success_witness :
    (DeleteUser dbRepo { uuid := sampleUuid }
      { users := [], details := [], contacts := [] }).1 = .ok {} ∧
    (DeleteUser dbRepo { uuid := sampleUuid }
      { users := [], details := [], contacts := [] }).1 ≠
      .error (.notFound "user not found") := by
  constructor
  · exact deleteUser_silent_success.1 _ _ ⟨sampleUuid⟩ (by decide) (by simp)
  · exact deleteUser_silent_success.2 dbRepo _ _ _

/-- C7: `CreateUserContacts` rejects an invalid phone number, or a present
non-positive telegram identifier, with invalid-argument before any store
access: the outcome is independent of the store and the store state is
returned untouched; in particular "+7999ABC4567" is rejected. -/
theorem createUserContacts_rejects_before_store :
    (∀ {σ : Type} (repo : Repo σ) (st : σ) (req : CreateUserContactsRequest),
      ValidatePhoneNumber req.phoneNumber = false →
      CreateUserContacts repo req st =
        (.error (.invalidArgument "invalid phone number format"), st)) ∧
    (∀ {σ : Type} (repo : Repo σ) (st : σ) (req : CreateUserContactsRequest) (t : Int),
      ValidatePhoneNumber req.phoneNumber = true → req.telegramId = some t → t ≤ 0 →
      CreateUserContacts repo req st =
        (.error (.invalidArgument "telegram ID must be positive"), st)) ∧
    ValidatePhoneNumber "+7999ABC4567" = false := by
  refine ⟨?_, ?_, by decide⟩
  · intro σ repo st req h
    simp [CreateUserContacts, h]
  · intro σ repo st req t hph ht hle
    simp [CreateUserContacts, hph, ht, hle]

/-- Witness for C7: the spec scenario, on a database holding the user row,
leaves the database exactly as it was. -/
theorem createUserContacts_rejects_before_store_witness :
    CreateUserContacts dbRepo
        { userUuid := sampleUuid, phoneNumber := "+7999ABC4567",
          email := none, telegramId := none }
        { users := [⟨sampleUuid⟩], details := [], contacts := [] } =
      (.error (.invalidArgument "invalid phone number format"),
       { users := [⟨sampleUuid⟩], details := [], contacts := [] }) := by
  exact createUserContacts_rejects_before_store.1 dbRepo _ _ (by decide)

/-!
Lookup lemmas for the table model: `find?` over append, filter and
key-preserving map.
-/

theorem find?_append {α : Type} (p : α → Bool) (l₁ l₂ : List α) :
    (l₁ ++ l₂).find? p = ((l₁.find? p).orElse fun _ => l₂.find? p) := by
  induction l₁ with
  | nil => rfl
  | cons a l ih =>
    by_cases hpa : p a = true
    · rw [List.cons_append, List.find?_cons_of_pos _ hpa, List.find?_cons_of_pos _ hpa]
      rfl
    · rw [List.cons_append, List.find?_cons_of_neg _ hpa, List.find?_cons_of_neg _ hpa]
      exact ih

/-- After removing exactly the rows satisfying `p`, nothing satisfying `p` is
found. -/
theorem find?_filter_not {α : Type} (p : α → Bool) (l : List α) :
    (l.filter fun a => !p a).find? p = none := by
  induction l with
  | nil => rfl
  | cons a l ih =>
    rw [List.filter_cons]
    cases hpa : p a with
    | true =>
      rw [if_neg (by simp [hpa])]
      exact ih
    | false =>
      rw [if_pos (by simp [hpa]), List.find?_cons_of_neg _ (by simp [hpa])]
      exact ih

/-- Removing the rows of another key leaves a lookup unchanged. -/
theorem find?_filter_other {α : Type} (k : α → Uuid) {u u₀ : Uuid} (hne : u ≠ u₀)
    (l : List α) :
    (l.filter fun a => !decide (k a = u₀)).find? (fun a => decide (k a = u)) =
      l.find? fun a => decide (k a = u) := by
  induction l with
  | nil => rfl
  | cons a l ih =>
    rw [List.filter_cons]
    by_cases ha : k a = u₀
    · simp only [decide_eq_true ha, Bool.not_true, Bool.false_eq_true, if_false]
      rw [List.find?_cons_of_neg _ (by simp [ha, hne.symm])]
      exact ih
    · simp only [decide_eq_false ha, Bool.not_false, if_true]
      by_cases hau : k a = u
      · rw [List.find?_cons_of_pos _ (by simp [hau]),
          List.find?_cons_of_pos _ (by simp [hau])]
      · rw [List.find?_cons_of_neg _ (by simp [hau]),
          List.find?_cons_of_neg _ (by simp [hau])]
        exact ih

/-- A key-preserving map commutes with the keyed lookup. -/
theorem find?_map_key {α : Type} (k : α → Uuid) (g : α → α)
    (hg : ∀ a, k (g a) = k a) (u : Uuid) (l : List α) :
    (l.map g).find? (fun a => decide (k a = u)) =
      (l.find? fun a => decide (k a = u)).map g := by
  induction l with
  | nil => rfl
  | cons a l ih =>
    rw [List.map_cons]
    by_cases hau : k a = u
    · rw [List.find?_cons_of_pos _ (by simp [hg, hau]),
        List.find?_cons_of_pos _ (by simp [hau])]
      rfl
    · rw [List.find?_cons_of_neg _ (by simp [hg, hau]),
        List.find?_cons_of_neg _ (by simp [hau])]
      exact ih

/-!
C8: the create–read round trip on details.
-/

/-- C8: on a database whose user row exists and has no details row yet, a
valid `CreateUserDetails` succeeds and a subsequent `GetUserDetails` for the
same identifier returns exactly the created name, surname, group code and
patronymic; an omitted patronymic stays absent in the read response. -/
theorem createThenGetDetails_roundtrip (db : DB) (req : CreateUserDetailsRequest)
    (u : Uuid)
    (hp : uuidParse req.userUuid = some u)
    (hu : u ∈ db.users)
    (hnone : findDetails db u = none)
    (hname : ValidateAlphabeticString req.name = true)
    (hsurname : ValidateAlphabeticString req.surname = true)
    (hpatr : req.patronymic.all ValidateAlphabeticString = true)
    (hgc : ValidateGroupCode req.groupCode = true) :
    ∃ db',
      CreateUserDetails dbRepo req db =
        (.ok { details := { name := req.name, surname := req.surname,
                            patronymic := req.patronymic,
                            groupCode := req.groupCode, userUuid := u.val } }, db') ∧
      GetUserDetails dbRepo { userUuid := req.userUuid } db' =
        (.ok { details := { name := req.name, surname := req.surname,
                            patronymic := req.patronymic,
                            groupCode := req.groupCode, userUuid := u.val } }, db') := by
  have hany : (req.patronymic.any fun p => !ValidateAlphabeticString p) = false := by
    cases hpat : req.patronymic <;> simp_all
  have hhas : hasUser db u = true := by
    rw [hasUser, List.any_eq_true]
    exact ⟨u, hu, by simp⟩
  have hchecks : detailsChecksOk req.name req.surname req.patronymic req.groupCode = true := by
    simp [detailsChecksOk, hname, hsurname, hpatr, hgc]
  refine ⟨{ db with details := db.details ++
      [⟨req.name, req.surname, req.patronymic, req.groupCode, u⟩] }, ?_, ?_⟩
  · simp [CreateUserDetails, hname, hsurname, hany, hgc, hp, dbRepo,
      dbCreateUserDetails, hhas, hnone, hchecks, detailsToMsg]
  · have hfind : findDetails
        { db with details := db.details ++
          [⟨req.name, req.surname, req.patronymic, req.groupCode, u⟩] } u =
        some ⟨req.name, req.surname, req.patronymic, req.groupCode, u⟩ := by
      rw [findDetails] at hnone ⊢
      rw [find?_append, hnone]
      simp [Option.orElse]
    simp [GetUserDetails, hp, dbRepo, dbGetUserDetails, hfind, detailsToMsg]

/-- Witness for C8: the spec scenario (Cyrillic fields, omitted patronymic)
run on a one-user database. -/
theorem createThenGetDetails_roundtrip_witness :
    ∃ db',
      CreateUserDetails dbRepo
          { userUuid := sampleUuid, name := "Иван", surname := "Петров",
            patronymic := none, groupCode := "ИТ-1-1" }
          { users := [⟨sampleUuid⟩], details := [], contacts := [] } =
        (.ok { details := { name := "Иван", surname := "Петров",
                            patronymic := none, groupCode := "ИТ-1-1",
                            userUuid := sampleUuid } }, db') ∧
      GetUserDetails dbRepo { userUuid := sampleUuid } db' =
        (.ok { details := { name := "Иван", surname := "Петров",
                            patronymic := none, groupCode := "ИТ-1-1",
                            userUuid := sampleUuid } }, db') := by
  exact createThenGetDetails_roundtrip _ _ ⟨sampleUuid⟩ (by decide) (by simp)
    (by decide) (by decide) (by decide) (by decide) (by decide)

/-!
State shape of each store operation, used for the monotonicity claim on
optional columns.
-/

theorem dbCreateUser_snd (u : Uuid) (db : DB) :
    ((dbCreateUser u db).2).details = db.details ∧
    ((dbCreateUser u db).2).contacts = db.contacts := by
  rw [dbCreateUser]; split <;> exact ⟨rfl, rfl⟩

theorem dbGetUserDetails_snd (u : Uuid) (db : DB) : (dbGetUserDetails u db).2 = db := by
  rw [dbGetUserDetails]
  cases hf : findDetails db u <;> rfl

theorem dbGetUserContacts_snd (u : Uuid) (db : DB) : (dbGetUserContacts u db).2 = db := by
  rw [dbGetUserContacts]
  cases hf : findContacts db u <;> rfl

theorem dbCreateUserDetails_snd (name surname : String) (patronymic : Option String)
    (groupCode : String) (u : Uuid) (db : DB) :
    ((dbCreateUserDetails name surname patronymic groupCode u db).2).contacts =
      db.contacts ∧
    (((dbCreateUserDetails name surname patronymic groupCode u db).2).details =
        db.details ∨
      (findDetails db u = none ∧
        ((dbCreateUserDetails name surname patronymic groupCode u db).2).details =
          db.details ++ [⟨name, surname, patronymic, groupCode, u⟩])) := by
  rw [dbCreateUserDetails]
  split
  · exact ⟨rfl, Or.inl rfl⟩
  split
  · exact ⟨rfl, Or.inl rfl⟩
  rename_i h1 h2
  split
  · exact ⟨rfl, Or.inl rfl⟩
  · refine ⟨rfl, Or.inr ⟨?_, rfl⟩⟩
    cases hf : findDetails db u with
    | none => rfl
    | some r => rw [hf] at h2; simp at h2

theorem dbCreateUserContacts_snd (phone : String) (email : Option String)
    (tg : Option Int) (u : Uuid) (db : DB) :
    ((dbCreateUserContacts phone email tg u db).2).details = db.details ∧
    (((dbCreateUserContacts phone email tg u db).2).contacts = db.contacts ∨
      (findContacts db u = none ∧
        ((dbCreateUserContacts phone email tg u db).2).contacts =
          db.contacts ++ [⟨phone, email, tg, u⟩])) := by
  rw [dbCreateUserContacts]
  split
  · exact ⟨rfl, Or.inl rfl⟩
  split
  · exact ⟨rfl, Or.inl rfl⟩
  rename_i h1 h2
  split
  · exact ⟨rfl, Or.inl rfl⟩
  · refine ⟨rfl, Or.inr ⟨?_, rfl⟩⟩
    cases hf : findContacts db u with
    | none => rfl
    | some r => rw [hf] at h2; simp at h2

theorem dbUpdateDetails_snd (u₀ : Uuid) (f : DetailsRow → DetailsRow) (db : DB) :
    ((dbUpdateDetails u₀ f db).2).contacts = db.contacts ∧
    (((dbUpdateDetails u₀ f db).2).details = db.details ∨
      ((dbUpdateDetails u₀ f db).2).details =
        db.details.map fun q => if decide (q.userUuid = u₀) then f q else q) := by
  rw [dbUpdateDetails]
  cases hf : findDetails db u₀ with
  | none => exact ⟨rfl, Or.inl rfl⟩
  | some r =>
    dsimp only
    split
    · exact ⟨rfl, Or.inl rfl⟩
    · exact ⟨rfl, Or.inr rfl⟩

theorem dbUpdateContacts_snd (u₀ : Uuid) (f : ContactsRow → ContactsRow) (db : DB) :
    ((dbUpdateContacts u₀ f db).2).details = db.details ∧
    (((dbUpdateContacts u₀ f db).2).contacts = db.contacts ∨
      ((dbUpdateContacts u₀ f db).2).contacts =
        db.contacts.map fun q => if decide (q.userUuid = u₀) then f q else q) := by
  rw [dbUpdateContacts]
  cases hf : findContacts db u₀ with
  | none => exact ⟨rfl, Or.inl rfl⟩
  | some r =>
    dsimp only
    split
    · exact ⟨rfl, Or.inl rfl⟩
    · exact ⟨rfl, Or.inr rfl⟩

/-- A successful details update returns an `f`-image of a stored row. -/
theorem dbUpdateDetails_ok {u : Uuid} {f : DetailsRow → DetailsRow} {db : DB}
    {row : DetailsRow} {st' : DB}
    (h : dbUpdateDetails u f db = (.ok row, st')) : ∃ r, row = f r := by
  rw [dbUpdateDetails] at h
  cases hf : findDetails db u with
  | none => rw [hf] at h; simp at h
  | some r =>
    rw [hf] at h
    dsimp only at h
    split at h
    · simp at h
    · refine ⟨r, ?_⟩
      have := congrArg Prod.fst h
      simpa using this.symm

/-- A successful contacts update returns an `f`-image of a stored row. -/
theorem dbUpdateContacts_ok {u : Uuid} {f : ContactsRow → ContactsRow} {db : DB}
    {row : ContactsRow} {st' : DB}
    (h : dbUpdateContacts u f db = (.ok row, st')) : ∃ r, row = f r := by
  rw [dbUpdateContacts] at h
  cases hf : findContacts db u with
  | none => rw [hf] at h; simp at h
  | some r =>
    rw [hf] at h
    dsimp only at h
    split at h
    · simp at h
    · refine ⟨r, ?_⟩
      have := congrArg Prod.fst h
      simpa using this.symm

/-!
Final store state of each handler: the initial state, or the state of its
single store call.
-/

theorem CreateUser_state (db : DB) (rq : CreateUserRequest) :
    (CreateUser dbRepo rq db).2 = db ∨
    ∃ u, (CreateUser dbRepo rq db).2 = (dbCreateUser u db).2 := by
  simp only [CreateUser, dbRepo]
  cases hp : uuidParse rq.uuid with
  | none => exact Or.inl rfl
  | some u =>
    dsimp only
    refine Or.inr ⟨u, ?_⟩
    rcases h2 : dbCreateUser u db with ⟨res, st'⟩
    cases res <;> rfl

theorem DeleteUser_state (db : DB) (rq : DeleteUserRequest) :
    (DeleteUser dbRepo rq db).2 = db ∨
    ∃ u, (DeleteUser dbRepo rq db).2 = (dbDeleteUser u db).2 := by
  simp only [DeleteUser, dbRepo]
  cases hp : uuidParse rq.uuid with
  | none => exact Or.inl rfl
  | some u =>
    dsimp only
    refine Or.inr ⟨u, ?_⟩
    rcases h2 : dbDeleteUser u db with ⟨res, st'⟩
    cases res <;> rfl

theorem GetUserDetails_state (db : DB) (rq : GetUserDetailsRequest) :
    (GetUserDetails dbRepo rq db).2 = db := by
  simp only [GetUserDetails, dbRepo]
  cases hp : uuidParse rq.userUuid with
  | none => rfl
  | some u =>
    dsimp only
    rcases h2 : dbGetUserDetails u db with ⟨res, st'⟩
    have hst : st' = db := by
      have := congrArg Prod.snd h2
      simpa [dbGetUserDetails_snd] using this.symm
    cases res <;> exact hst

theorem GetUserContacts_state (db : DB) (rq : GetUserContactsRequest) :
    (GetUserContacts dbRepo rq db).2 = db := by
  simp only [GetUserContacts, dbRepo]
  cases hp : uuidParse rq.userUuid with
  | none => rfl
  | some u =>
    dsimp only
    rcases h2 : dbGetUserContacts u db with ⟨res, st'⟩
    have hst : st' = db := by
      have := congrArg Prod.snd h2
      simpa [dbGetUserContacts_snd] using this.symm
    cases res <;> exact hst

theorem CreateUserDetails_state (db : DB) (rq : CreateUserDetailsRequest) :
    (CreateUserDetails dbRepo rq db).2 = db ∨
    ∃ u, (CreateUserDetails dbRepo rq db).2 =
      (dbCreateUserDetails rq.name rq.surname rq.patronymic rq.groupCode u db).2 := by
  simp only [CreateUserDetails, dbRepo]
  split
  · exact Or.inl rfl
  split
  · exact Or.inl rfl
  split
  · exact Or.inl rfl
  split
  · exact Or.inl rfl
  cases hp : uuidParse rq.userUuid with
  | none => exact Or.inl rfl
  | some u =>
    dsimp only
    refine Or.inr ⟨u, ?_⟩
    rcases h2 : dbCreateUserDetails rq.name rq.surname rq.patronymic rq.groupCode u db
      with ⟨res, st'⟩
    cases res <;> rfl

theorem CreateUserContacts_state (db : DB) (rq : CreateUserContactsRequest) :
    (CreateUserContacts dbRepo rq db).2 = db ∨
    ∃ u, (CreateUserContacts dbRepo rq db).2 =
      (dbCreateUserContacts rq.phoneNumber rq.email rq.telegramId u db).2 := by
  simp only [CreateUserContacts, dbRepo]
  split
  · exact Or.inl rfl
  split
  · exact Or.inl rfl
  cases hp : uuidParse rq.userUuid with
  | none => exact Or.inl rfl
  | some u =>
    dsimp only
    refine Or.inr ⟨u, ?_⟩
    rcases h2 : dbCreateUserContacts rq.phoneNumber rq.email rq.telegramId u db
      with ⟨res, st'⟩
    cases res <;> rfl

theorem UpdateUserName_state (db : DB) (rq : UpdateUserNameRequest) :
    (UpdateUserName dbRepo rq db).2 = db ∨
    ∃ u, (UpdateUserName dbRepo rq db).2 =
      (dbUpdateDetails u (fun q => { q with name := rq.name }) db).2 := by
  simp only [UpdateUserName, dbRepo]
  split
  · exact Or.inl rfl
  cases hp : uuidParse rq.userUuid with
  | none => exact Or.inl rfl
  | some u =>
    dsimp only
    refine Or.inr ⟨u, ?_⟩
    rcases h2 : dbUpdateDetails u (fun q => { q with name := rq.name }) db with ⟨res, st'⟩
    cases res <;> rfl

theorem UpdateUserSurname_state (db : DB) (rq : UpdateUserSurnameRequest) :
    (UpdateUserSurname dbRepo rq db).2 = db ∨
    ∃ u, (UpdateUserSurname dbRepo rq db).2 =
      (dbUpdateDetails u (fun q => { q with surname := rq.surname }) db).2 := by
  simp only [UpdateUserSurname, dbRepo]
  split
  · exact Or.inl rfl
  cases hp : uuidParse rq.userUuid with
  | none => exact Or.inl rfl
  | some u =>
    dsimp only
    refine Or.inr ⟨u, ?_⟩
    rcases h2 : dbUpdateDetails u (fun q => { q with surname := rq.surname }) db
      with ⟨res, st'⟩
    cases res <;> rfl

theorem UpdateUserPatronymic_state (db : DB) (rq : UpdateUserPatronymicRequest) :
    (UpdateUserPatronymic dbRepo rq db).2 = db ∨
    ∃ u, (UpdateUserPatronymic dbRepo rq db).2 =
      (dbUpdateDetails u (fun q => { q with patronymic := some rq.patronymic }) db).2 := by
  simp only [UpdateUserPatronymic, dbRepo]
  split
  · exact Or.inl rfl
  cases hp : uuidParse rq.userUuid with
  | none => exact Or.inl rfl
  | some u =>
    dsimp only
    refine Or.inr ⟨u, ?_⟩
    rcases h2 : dbUpdateDetails u (fun q => { q with patronymic := some rq.patronymic }) db
      with ⟨res, st'⟩
    cases res <;> rfl

theorem UpdateUserGroupCode_state (db : DB) (rq : UpdateUserGroupCodeRequest) :
    (UpdateUserGroupCode dbRepo rq db).2 = db ∨
    ∃ u, (UpdateUserGroupCode dbRepo rq db).2 =
      (dbUpdateDetails u (fun q => { q with groupCode := rq.groupCode }) db).2 := by
  simp only [UpdateUserGroupCode, dbRepo]
  split
  · exact Or.inl rfl
  cases hp : uuidParse rq.userUuid with
  | none => exact Or.inl rfl
  | some u =>
    dsimp only
    refine Or.inr ⟨u, ?_⟩
    rcases h2 : dbUpdateDetails u (fun q => { q with groupCode := rq.groupCode }) db
      with ⟨res, st'⟩
    cases res <;> rfl

theorem UpdateUserPhoneNumber_state (db : DB) (rq : UpdateUserPhoneNumberRequest) :
    (UpdateUserPhoneNumber dbRepo rq db).2 = db ∨
    ∃ u, (UpdateUserPhoneNumber dbRepo rq db).2 =
      (dbUpdateContacts u (fun q => { q with phoneNumber := rq.phoneNumber }) db).2 := by
  simp only [UpdateUserPhoneNumber, dbRepo]
  split
  · exact Or.inl rfl
  cases hp : uuidParse rq.userUuid with
  | none => exact Or.inl rfl
  | some u =>
    dsimp only
    refine Or.inr ⟨u, ?_⟩
    rcases h2 : dbUpdateContacts u (fun q => { q with phoneNumber := rq.phoneNumber }) db
      with ⟨res, st'⟩
    cases res <;> rfl

theorem UpdateUserEmail_state (db : DB) (rq : UpdateUserEmailRequest) :
    (UpdateUserEmail dbRepo rq db).2 = db ∨
    ∃ u, (UpdateUserEmail dbRepo rq db).2 =
      (dbUpdateContacts u (fun q => { q with email := some rq.email }) db).2 := by
  simp only [UpdateUserEmail, dbRepo]
  cases hp : uuidParse rq.userUuid with
  | none => exact Or.inl rfl
  | some u =>
    dsimp only
    refine Or.inr ⟨u, ?_⟩
    rcases h2 : dbUpdateContacts u (fun q => { q with email := some rq.email }) db
      with ⟨res, st'⟩
    cases res <;> rfl

theorem UpdateUserTelegramID_state (db : DB) (rq : UpdateUserTelegramIDRequest) :
    (UpdateUserTelegramID dbRepo rq db).2 = db ∨
    ∃ u, (UpdateUserTelegramID dbRepo rq db).2 =
      (dbUpdateContacts u (fun q => { q with telegramId := some rq.telegramId }) db).2 := by
  simp only [UpdateUserTelegramID, dbRepo]
  split
  · exact Or.inl rfl
  cases hp : uuidParse rq.userUuid with
  | none => exact Or.inl rfl
  | some u =>
    dsimp only
    refine Or.inr ⟨u, ?_⟩
    rcases h2 : dbUpdateContacts u (fun q => { q with telegramId := some rq.telegramId }) db
      with ⟨res, st'⟩
    cases res <;> rfl

/-- A keyed details lookup after an update returns the old row or its
`f`-image. -/
theorem findDetails_after_update {db : DB} {u : Uuid} (u₀ : Uuid) (f : DetailsRow → DetailsRow)
    (hkey : ∀ q, (f q).userUuid = q.userUuid) {r : DetailsRow}
    (h : findDetails db u = some r) :
    findDetails (dbUpdateDetails u₀ f db).2 u = some r ∨
    findDetails (dbUpdateDetails u₀ f db).2 u = some (f r) := by
  rcases (dbUpdateDetails_snd u₀ f db).2 with hs | hs
  · left
    rw [findDetails, hs]
    rw [findDetails] at h
    exact h
  · have hg : ∀ q : DetailsRow,
        ((fun q => if decide (q.userUuid = u₀) then f q else q) q).userUuid =
          q.userUuid := by
      intro q
      by_cases hq : q.userUuid = u₀ <;> simp [hq, hkey]
    rw [findDetails, hs, find?_map_key DetailsRow.userUuid _ hg u]
    rw [findDetails] at h
    rw [h]
    by_cases hru : r.userUuid = u₀
    · right; simp [hru]
    · left; simp [hru]

/-- A keyed contacts lookup after an update returns the old row or its
`f`-image. -/
theorem findContacts_after_update {db : DB} {u : Uuid} (u₀ : Uuid) (f : ContactsRow → ContactsRow)
    (hkey : ∀ q, (f q).userUuid = q.userUuid) {r : ContactsRow}
    (h : findContacts db u = some r) :
    findContacts (dbUpdateContacts u₀ f db).2 u = some r ∨
    findContacts (dbUpdateContacts u₀ f db).2 u = some (f r) := by
  rcases (dbUpdateContacts_snd u₀ f db).2 with hs | hs
  · left
    rw [findContacts, hs]
    rw [findContacts] at h
    exact h
  · have hg : ∀ q : ContactsRow,
        ((fun q => if decide (q.userUuid = u₀) then f q else q) q).userUuid =
          q.userUuid := by
      intro q
      by_cases hq : q.userUuid = u₀ <;> simp [hq, hkey]
    rw [findContacts, hs, find?_map_key ContactsRow.userUuid _ hg u]
    rw [findContacts] at h
    rw [h]
    by_cases hru : r.userUuid = u₀
    · right; simp [hru]
    · left; simp [hru]

/-- One served request either loses a details row (cascade delete) or leaves
its patronymic present when it was present. -/
theorem findDetails_step (db : DB) (req : RpcRequest) (u : Uuid) (r : DetailsRow)
    (h : findDetails db u = some r) :
    findDetails (runRpc db req) u = none ∨
    ∃ r', findDetails (runRpc db req) u = some r' ∧
      (r'.patronymic = r.patronymic ∨ r'.patronymic.isSome = true) := by
  have hsame : ∀ db' : DB, db'.details = db.details → findDetails db' u = some r := by
    intro db' hd
    rw [findDetails, hd]
    rw [findDetails] at h
    exact h
  cases req with
  | createUser rq =>
    simp only [runRpc]
    rcases CreateUser_state db rq with hs | ⟨u₀, hs⟩
    · right; exact ⟨r, by rw [hs]; exact h, Or.inl rfl⟩
    · right; exact ⟨r, by rw [hs]; exact hsame _ (dbCreateUser_snd u₀ db).1, Or.inl rfl⟩
  | deleteUser rq =>
    simp only [runRpc]
    rcases DeleteUser_state db rq with hs | ⟨u₀, hs⟩
    · right; exact ⟨r, by rw [hs]; exact h, Or.inl rfl⟩
    · rw [hs]
      have hd : ((dbDeleteUser u₀ db).2).details =
          db.details.filter fun q => !decide (q.userUuid = u₀) := rfl
      by_cases huu : u = u₀
      · left
        subst huu
        rw [findDetails, hd]
        exact find?_filter_not _ _
      · right
        refine ⟨r, ?_, Or.inl rfl⟩
        rw [findDetails, hd, find?_filter_other DetailsRow.userUuid huu]
        rw [findDetails] at h
        exact h
  | getUserDetails rq =>
    right
    refine ⟨r, ?_, Or.inl rfl⟩
    simp only [runRpc]
    rw [GetUserDetails_state db rq]
    exact h
  | getUserContacts rq =>
    right
    refine ⟨r, ?_, Or.inl rfl⟩
    simp only [runRpc]
    rw [GetUserContacts_state db rq]
    exact h
  | createUserDetails rq =>
    simp only [runRpc]
    rcases CreateUserDetails_state db rq with hs | ⟨u₀, hs⟩
    · right; exact ⟨r, by rw [hs]; exact h, Or.inl rfl⟩
    · rw [hs]
      rcases (dbCreateUserDetails_snd rq.name rq.surname rq.patronymic rq.groupCode
          u₀ db).2 with hd | ⟨hn, hd⟩
      · right; exact ⟨r, hsame _ hd, Or.inl rfl⟩
      · right
        refine ⟨r, ?_, Or.inl rfl⟩
        rw [findDetails, hd, find?_append]
        rw [findDetails] at h
        rw [h]
        rfl
  | createUserContacts rq =>
    simp only [runRpc]
    rcases CreateUserContacts_state db rq with hs | ⟨u₀, hs⟩
    · right; exact ⟨r, by rw [hs]; exact h, Or.inl rfl⟩
    · right
      exact ⟨r, by
        rw [hs]
        exact hsame _ (dbCreateUserContacts_snd rq.phoneNumber rq.email rq.telegramId
          u₀ db).1, Or.inl rfl⟩
  | updateUserName rq =>
    simp only [runRpc]
    rcases UpdateUserName_state db rq with hs | ⟨u₀, hs⟩
    · right; exact ⟨r, by rw [hs]; exact h, Or.inl rfl⟩
    · rw [hs]
      rcases findDetails_after_update u₀
          (fun q => { q with name := rq.name }) (fun q => rfl) h with h' | h'
      · right; exact ⟨r, h', Or.inl rfl⟩
      · right; exact ⟨_, h', Or.inl rfl⟩
  | updateUserSurname rq =>
    simp only [runRpc]
    rcases UpdateUserSurname_state db rq with hs | ⟨u₀, hs⟩
    · right; exact ⟨r, by rw [hs]; exact h, Or.inl rfl⟩
    · rw [hs]
      rcases findDetails_after_update u₀
          (fun q => { q with surname := rq.surname }) (fun q => rfl) h with h' | h'
      · right; exact ⟨r, h', Or.inl rfl⟩
      · right; exact ⟨_, h', Or.inl rfl⟩
  | updateUserPatronymic rq =>
    simp only [runRpc]
    rcases UpdateUserPatronymic_state db rq with hs | ⟨u₀, hs⟩
    · right; exact ⟨r, by rw [hs]; exact h, Or.inl rfl⟩
    · rw [hs]
      rcases findDetails_after_update u₀
          (fun q => { q with patronymic := some rq.patronymic }) (fun q => rfl) h
        with h' | h'
      · right; exact ⟨r, h', Or.inl rfl⟩
      · right; exact ⟨_, h', Or.inr rfl⟩
  | updateUserGroupCode rq =>
    simp only [runRpc]
    rcases UpdateUserGroupCode_state db rq with hs | ⟨u₀, hs⟩
    · right; exact ⟨r, by rw [hs]; exact h, Or.inl rfl⟩
    · rw [hs]
      rcases findDetails_after_update u₀
          (fun q => { q with groupCode := rq.groupCode }) (fun q => rfl) h
        with h' | h'
      · right; exact ⟨r, h', Or.inl rfl⟩
      · right; exact ⟨_, h', Or.inl rfl⟩
  | updateUserPhoneNumber rq =>
    simp only [runRpc]
    rcases UpdateUserPhoneNumber_state db rq with hs | ⟨u₀, hs⟩
    · right; exact ⟨r, by rw [hs]; exact h, Or.inl rfl⟩
    · right
      exact ⟨r, by rw [hs]; exact hsame _ (dbUpdateContacts_snd u₀ _ db).1, Or.inl rfl⟩
  | updateUserEmail rq =>
    simp only [runRpc]
    rcases UpdateUserEmail_state db rq with hs | ⟨u₀, hs⟩
    · right; exact ⟨r, by rw [hs]; exact h, Or.inl rfl⟩
    · right
      exact ⟨r, by rw [hs]; exact hsame _ (dbUpdateContacts_snd u₀ _ db).1, Or.inl rfl⟩
  | updateUserTelegramID rq =>
    simp only [runRpc]
    rcases UpdateUserTelegramID_state db rq with hs | ⟨u₀, hs⟩
    · right; exact ⟨r, by rw [hs]; exact h, Or.inl rfl⟩
    · right
      exact ⟨r, by rw [hs]; exact hsame _ (dbUpdateContacts_snd u₀ _ db).1, Or.inl rfl⟩

/-- One served request either loses a contacts row (cascade delete) or leaves
its present email and telegram identifier present. -/
theorem findContacts_step (db : DB) (req : RpcRequest) (u : Uuid) (r : ContactsRow)
    (h : findContacts db u = some r) :
    findContacts (runRpc db req) u = none ∨
    ∃ r', findContacts (runRpc db req) u = some r' ∧
      (r'.email = r.email ∨ r'.email.isSome = true) ∧
      (r'.telegramId = r.telegramId ∨ r'.telegramId.isSome = true) := by
  have hsame : ∀ db' : DB, db'.contacts = db.contacts → findContacts db' u = some r := by
    intro db' hd
    rw [findContacts, hd]
    rw [findContacts] at h
    exact h
  cases req with
  | createUser rq =>
    simp only [runRpc]
    rcases CreateUser_state db rq with hs | ⟨u₀, hs⟩
    · right; exact ⟨r, by rw [hs]; exact h, Or.inl rfl, Or.inl rfl⟩
    · right
      exact ⟨r, by rw [hs]; exact hsame _ (dbCreateUser_snd u₀ db).2,
        Or.inl rfl, Or.inl rfl⟩
  | deleteUser rq =>
    simp only [runRpc]
    rcases DeleteUser_state db rq with hs | ⟨u₀, hs⟩
    · right; exact ⟨r, by rw [hs]; exact h, Or.inl rfl, Or.inl rfl⟩
    · rw [hs]
      have hd : ((dbDeleteUser u₀ db).2).contacts =
          db.contacts.filter fun q => !decide (q.userUuid = u₀) := rfl
      by_cases huu : u = u₀
      · left
        subst huu
        rw [findContacts, hd]
        exact find?_filter_not _ _
      · right
        refine ⟨r, ?_, Or.inl rfl, Or.inl rfl⟩
        rw [findContacts, hd, find?_filter_other ContactsRow.userUuid huu]
        rw [findContacts] at h
        exact h
  | getUserDetails rq =>
    right
    refine ⟨r, ?_, Or.inl rfl, Or.inl rfl⟩
    simp only [runRpc]
    rw [GetUserDetails_state db rq]
    exact h
  | getUserContacts rq =>
    right
    refine ⟨r, ?_, Or.inl rfl, Or.inl rfl⟩
    simp only [runRpc]
    rw [GetUserContacts_state db rq]
    exact h
  | createUserDetails rq =>
    simp only [runRpc]
    rcases CreateUserDetails_state db rq with hs | ⟨u₀, hs⟩
    · right; exact ⟨r, by rw [hs]; exact h, Or.inl rfl, Or.inl rfl⟩
    · right
      exact ⟨r, by
        rw [hs]
        exact hsame _ (dbCreateUserDetails_snd rq.name rq.surname rq.patronymic
          rq.groupCode u₀ db).1, Or.inl rfl, Or.inl rfl⟩
  | createUserContacts rq =>
    simp only [runRpc]
    rcases CreateUserContacts_state db rq with hs | ⟨u₀, hs⟩
    · right; exact ⟨r, by rw [hs]; exact h, Or.inl rfl, Or.inl rfl⟩
    · rw [hs]
      rcases (dbCreateUserContacts_snd rq.phoneNumber rq.email rq.telegramId
          u₀ db).2 with hd | ⟨hn, hd⟩
      · right; exact ⟨r, hsame _ hd, Or.inl rfl, Or.inl rfl⟩
      · right
        refine ⟨r, ?_, Or.inl rfl, Or.inl rfl⟩
        rw [findContacts, hd, find?_append]
        rw [findContacts] at h
        rw [h]
        rfl
  | updateUserName rq =>
    simp only [runRpc]
    rcases UpdateUserName_state db rq with hs | ⟨u₀, hs⟩
    · right; exact ⟨r, by rw [hs]; exact h, Or.inl rfl, Or.inl rfl⟩
    · right
      exact ⟨r, by rw [hs]; exact hsame _ (dbUpdateDetails_snd u₀ _ db).1,
        Or.inl rfl, Or.inl rfl⟩
  | updateUserSurname rq =>
    simp only [runRpc]
    rcases UpdateUserSurname_state db rq with hs | ⟨u₀, hs⟩
    · right; exact ⟨r, by rw [hs]; exact h, Or.inl rfl, Or.inl rfl⟩
    · right
      exact ⟨r, by rw [hs]; exact hsame _ (dbUpdateDetails_snd u₀ _ db).1,
        Or.inl rfl, Or.inl rfl⟩
  | updateUserPatronymic rq =>
    simp only [runRpc]
    rcases UpdateUserPatronymic_state db rq with hs | ⟨u₀, hs⟩
    · right; exact ⟨r, by rw [hs]; exact h, Or.inl rfl, Or.inl rfl⟩
    · right
      exact ⟨r, by rw [hs]; exact hsame _ (dbUpdateDetails_snd u₀ _ db).1,
        Or.inl rfl, Or.inl rfl⟩
  | updateUserGroupCode rq =>
    simp only [runRpc]
    rcases UpdateUserGroupCode_state db rq with hs | ⟨u₀, hs⟩
    · right; exact ⟨r, by rw [hs]; exact h, Or.inl rfl, Or.inl rfl⟩
    · right
      exact ⟨r, by rw [hs]; exact hsame _ (dbUpdateDetails_snd u₀ _ db).1,
        Or.inl rfl, Or.inl rfl⟩
  | updateUserPhoneNumber rq =>
    simp only [runRpc]
    rcases UpdateUserPhoneNumber_state db rq with hs | ⟨u₀, hs⟩
    · right; exact ⟨r, by rw [hs]; exact h, Or.inl rfl, Or.inl rfl⟩
    · rw [hs]
      rcases findContacts_after_update u₀
          (fun q => { q with phoneNumber := rq.phoneNumber }) (fun q => rfl) h
        with h' | h'
      · right; exact ⟨r, h', Or.inl rfl, Or.inl rfl⟩
      · right; exact ⟨_, h', Or.inl rfl, Or.inl rfl⟩
  | updateUserEmail rq =>
    simp only [runRpc]
    rcases UpdateUserEmail_state db rq with hs | ⟨u₀, hs⟩
    · right; exact ⟨r, by rw [hs]; exact h, Or.inl rfl, Or.inl rfl⟩
    · rw [hs]
      rcases findContacts_after_update u₀
          (fun q => { q with email := some rq.email }) (fun q => rfl) h
        with h' | h'
      · right; exact ⟨r, h', Or.inl rfl, Or.inl rfl⟩
      · right; exact ⟨_, h', Or.inr rfl, Or.inl rfl⟩
  | updateUserTelegramID rq =>
    simp only [runRpc]
    rcases UpdateUserTelegramID_state db rq with hs | ⟨u₀, hs⟩
    · right; exact ⟨r, by rw [hs]; exact h, Or.inl rfl, Or.inl rfl⟩
    · rw [hs]
      rcases findContacts_after_update u₀
          (fun q => { q with telegramId := some rq.telegramId }) (fun q => rfl) h
        with h' | h'
      · right; exact ⟨r, h', Or.inl rfl, Or.inl rfl⟩
      · right; exact ⟨_, h', Or.inl rfl, Or.inr rfl⟩

/-- C10: once an optional column (patronymic, email, telegram identifier) is
present for a user it never becomes absent again: serving any request of the
RPC surface either removes the whole row (DeleteUser's cascade) or leaves the
present field present; and the three dedicated updates always write a present
value. -/
theorem optionalFields_never_cleared :
    (∀ (db : DB) (req : RpcRequest) (u : Uuid) (r r' : DetailsRow),
      findDetails db u = some r → findDetails (runRpc db req) u = some r' →
      r.patronymic.isSome = true → r'.patronymic.isSome = true) ∧
    (∀ (db : DB) (req : RpcRequest) (u : Uuid) (r r' : ContactsRow),
      findContacts db u = some r → findContacts (runRpc db req) u = some r' →
      r.email.isSome = true → r'.email.isSome = true) ∧
    (∀ (db : DB) (req : RpcRequest) (u : Uuid) (r r' : ContactsRow),
      findContacts db u = some r → findContacts (runRpc db req) u = some r' →
      r.telegramId.isSome = true → r'.telegramId.isSome = true) ∧
    (∀ (db db' : DB) (req : UpdateUserPatronymicRequest)
        (resp : UpdateUserPatronymicResponse),
      UpdateUserPatronymic dbRepo req db = (.ok resp, db') →
      resp.details.patronymic = some req.patronymic) ∧
    (∀ (db db' : DB) (req : UpdateUserEmailRequest) (resp : UpdateUserEmailResponse),
      UpdateUserEmail dbRepo req db = (.ok resp, db') →
      resp.contacts.email = some req.email) ∧
    (∀ (db db' : DB) (req : UpdateUserTelegramIDRequest)
        (resp : UpdateUserTelegramIDResponse),
      UpdateUserTelegramID dbRepo req db = (.ok resp, db') →
      resp.contacts.telegramId = some req.telegramId) := by
  refine ⟨?_, ?_, ?_, ?_, ?_, ?_⟩
  · intro db req u r r' h h' hpre
    rcases findDetails_step db req u r h with hnone | ⟨r'', h'', hp⟩
    · rw [h'] at hnone; simp at hnone
    · rw [h'] at h''
      obtain rfl : r' = r'' := by injection h''
      rcases hp with hp | hp
      · rw [hp]; exact hpre
      · exact hp
  · intro db req u r r' h h' hpre
    rcases findContacts_step db req u r h with hnone | ⟨r'', h'', hp, -⟩
    · rw [h'] at hnone; simp at hnone
    · rw [h'] at h''
      obtain rfl : r' = r'' := by injection h''
      rcases hp with hp | hp
      · rw [hp]; exact hpre
      · exact hp
  · intro db req u r r' h h' hpre
    rcases findContacts_step db req u r h with hnone | ⟨r'', h'', -, hp⟩
    · rw [h'] at hnone; simp at hnone
    · rw [h'] at h''
      obtain rfl : r' = r'' := by injection h''
      rcases hp with hp | hp
      · rw [hp]; exact hpre
      · exact hp
  · intro db db' req resp hrun
    rw [UpdateUserPatronymic] at hrun
    split at hrun
    · simp at hrun
    · cases hp : uuidParse req.userUuid with
      | none => rw [hp] at hrun; simp at hrun
      | some u =>
        rw [hp] at hrun
        simp only [dbRepo] at hrun
        rcases hop : dbUpdateDetails u
            (fun q => { q with patronymic := some req.patronymic }) db with ⟨res, st'⟩
        rw [hop] at hrun
        cases res with
        | ok row =>
          obtain ⟨r0, hr0⟩ := dbUpdateDetails_ok hop
          have hresp := congrArg Prod.fst hrun
          dsimp only at hresp
          injection hresp with hinj
          rw [← hinj, hr0]
          rfl
        | noRows => simp at hrun
        | fail msg => simp at hrun
  · intro db db' req resp hrun
    rw [UpdateUserEmail] at hrun
    cases hp : uuidParse req.userUuid with
    | none => rw [hp] at hrun; simp at hrun
    | some u =>
      rw [hp] at hrun
      simp only [dbRepo] at hrun
      rcases hop : dbUpdateContacts u
          (fun q => { q with email := some req.email }) db with ⟨res, st'⟩
      rw [hop] at hrun
      cases res with
      | ok row =>
        obtain ⟨r0, hr0⟩ := dbUpdateContacts_ok hop
        have hresp := congrArg Prod.fst hrun
        dsimp only at hresp
        injection hresp with hinj
        rw [← hinj, hr0]
        rfl
      | noRows => simp at hrun
      | fail msg => simp at hrun
  · intro db db' req resp hrun
    rw [UpdateUserTelegramID] at hrun
    split at hrun
    · simp at hrun
    · cases hp : uuidParse req.userUuid with
      | none => rw [hp] at hrun; simp at hrun
      | some u =>
        rw [hp] at hrun
        simp only [dbRepo] at hrun
        rcases hop : dbUpdateContacts u
            (fun q => { q with telegramId := some req.telegramId }) db with ⟨res, st'⟩
        rw [hop] at hrun
        cases res with
        | ok row =>
          obtain ⟨r0, hr0⟩ := dbUpdateContacts_ok hop
          have hresp := congrArg Prod.fst hrun
          dsimp only at hresp
          injection hresp with hinj
          rw [← hinj, hr0]
          rfl
        | noRows => simp at hrun
        | fail msg => simp at hrun

/-- Witness for C10: a present patronymic survives an `UpdateUserName` request
served on a concrete one-row database. -/
theorem optionalFields_never_cleared_witness :
    (⟨"Пётр", "Петров", some "Иванович", "ИТ-1-1", ⟨sampleUuid⟩⟩ :
      DetailsRow).patronymic.isSome = true := by
  exact optionalFields_never_cleared.1
    { users := [⟨sampleUuid⟩],
      details := [⟨"Иван", "Петров", some "Иванович", "ИТ-1-1", ⟨sampleUuid⟩⟩],
      contacts := [] }
    (.updateUserName { userUuid := sampleUuid, name := "Пётр" })
    ⟨sampleUuid⟩
    ⟨"Иван", "Петров", some "Иванович", "ИТ-1-1", ⟨sampleUuid⟩⟩
    ⟨"Пётр", "Петров", some "Иванович", "ИТ-1-1", ⟨sampleUuid⟩⟩
    rfl (by decide) rfl

end UserService
